import Mathlib

/-!
Shallow embedding of the Order_AI_Agent repository core
(`article_codes.py`, `database.py`, `data_extractor.py`, `app.py`)
and proofs of the specification claims about it.

Python strings are modelled as Lean `String`; Python `None`-able values as
`Option`; Python truthiness is made explicit (`""`, `0` and `None` are falsy).
Machine floats (quantities, scores) are modelled as exact rationals.
-/

namespace OrderAI

/-! ## Embedded definitions, translated from the Python sources -/


/-- ASCII lowercasing of one character, plus the accented capital letters that
occur in this codebase (models Python `str.lower` on the alphabet actually
used; the accented mappings are irrelevant to SQLite `LOWER`, see
`asciiLowerChar`). -/
def pyLowerChar (c : Char) : Char :=
  if 'A' ≤ c ∧ c ≤ 'Z' then Char.ofNat (c.toNat + 32)
  else if c = 'É' then 'é'
  else if c = 'È' then 'è'
  else if c = 'Ê' then 'ê'
  else if c = 'À' then 'à'
  else if c = 'Ç' then 'ç'
  else c

/-- SQLite `LOWER` lowercases ASCII letters only. -/
def asciiLowerChar (c : Char) : Char :=
  if 'A' ≤ c ∧ c ≤ 'Z' then Char.ofNat (c.toNat + 32) else c

/-- Python `str.lower` lifted to strings. -/
def pyLower (s : String) : String := String.mk (s.toList.map pyLowerChar)

/-- SQLite `LOWER` lifted to strings. -/
def asciiLower (s : String) : String := String.mk (s.toList.map asciiLowerChar)

/-- Does `hay` start with `needle` (character lists)? -/
def startsL : List Char → List Char → Bool
  | [], _ => true
  | _ :: _, [] => false
  | a :: as, b :: bs => a = b && startsL as bs

/-- Python substring test `needle in hay` on character lists. -/
def containsL : List Char → List Char → Bool
  | n, [] => n.isEmpty
  | n, h :: t => startsL n (h :: t) || containsL n t

/-- Python substring test `needle in hay` on strings. -/
def containsS (needle hay : String) : Bool := containsL needle.toList hay.toList

/-- Character for a decimal digit value. -/
def digitChar : ℕ → Char
  | 0 => '0' | 1 => '1' | 2 => '2' | 3 => '3' | 4 => '4'
  | 5 => '5' | 6 => '6' | 7 => '7' | 8 => '8' | 9 => '9'
  | _ => '*'

/-- Decimal digit characters of `n`, most significant first; `fuel` bounds the
recursion so the definition is structural (and hence kernel-reducible). -/
def natDigitsAux : ℕ → ℕ → List Char
  | 0, _ => []
  | fuel + 1, n =>
    if n < 10 then [digitChar n]
    else natDigitsAux fuel (n / 10) ++ [digitChar (n % 10)]

/-- Decimal digit characters of `n`, most significant first. -/
def natDigits (n : ℕ) : List Char := natDigitsAux (n + 1) n

/-- Models Python `str(n)` for a natural number. -/
def natStr (n : ℕ) : String := String.mk (natDigits n)

/-- ASCII decimal digit test (models the regex class `\d` on the inputs that
occur here, which are ASCII). -/
def isAsciiDigit (c : Char) : Bool := '0' ≤ c && c ≤ '9'

/-- Numeric value of a digit string, models Python `int(s)` on digit runs. -/
def digitsToNat (l : List Char) : ℕ := l.foldl (fun a c => 10 * a + (c.toNat - 48)) 0

/-- Python truthiness of an optional string: `None` and `""` are falsy. -/
def strFalsy : Option String → Bool
  | none => true
  | some s => s == ""

/-- Python truthiness of an optional rational: `None` and `0` are falsy. -/
def ratFalsy : Option ℚ → Bool
  | none => true
  | some q => q == 0

/-- Python `x or 0` for an optional numeric value. -/
def pyOr0 : Option ℚ → ℚ
  | none => 0
  | some q => q

/-- Python `a or b` for optional strings (first truthy operand, else `b`). -/
def pyOrOpt (a b : Option String) : Option String :=
  if strFalsy a then b else a

/-- Python `a or b` where `b` is a plain string fallback. -/
def orElseS (a : Option String) (b : String) : String :=
  match a with
  | some s => if s = "" then b else s
  | none => b

/-- Python `str.startswith`. -/
def pyStartsWith (s pre : String) : Bool := startsL pre.toList s.toList

/-- Python `str.strip`: drop leading and trailing whitespace. -/
def pyStrip (s : String) : String :=
  String.mk (((s.toList.dropWhile Char.isWhitespace).reverse.dropWhile Char.isWhitespace).reverse)

/-- Python `str.capitalize` on the ASCII-lowercase names used here. -/
def pyCapitalize (s : String) : String :=
  match s.toList with
  | [] => ""
  | c :: cs => String.mk ((if 'a' ≤ c ∧ c ≤ 'z' then Char.ofNat (c.toNat - 32) else c) :: cs.map pyLowerChar)

/-- `PAPER_TYPES` dict of `article_codes.py`, in insertion order. -/
def PAPER_TYPES : List (String × String) :=
  [("kraft blanchi", "KB"), ("kraft ecru", "KE"), ("kraft naturel", "KE"),
   ("kraft", "KE"), ("blanchi", "KB"), ("ecru", "KE")]

/-- `SUPPLIERS` dict of `article_codes.py`, in insertion order. -/
def SUPPLIERS : List (String × String) :=
  [("mondi", "MON"), ("nordic", "NOR"), ("billerud", "BIL"),
   ("smurfit", "SMU"), ("default", "STD")]

/-- The `type_code` computation of `generate_article_code`: default `"KE"`,
else the first `PAPER_TYPES` key occurring in the lowercased input (the dict
loop with `break` is the first match in insertion order, `List.find?`). -/
def typeCodeOf (paper_type : Option String) : String :=
  match paper_type with
  | some p =>
    if p = "" then "KE"
    else
      match PAPER_TYPES.find? (fun kv => containsS kv.1 (pyLower p)) with
      | some kv => kv.2
      | none => "KE"
  | none => "KE"

/-- The `gram` computation of `generate_article_code`: `str(grammage)` when
truthy, else the default `"80"`. -/
def gramOf (grammage : Option ℕ) : String :=
  match grammage with
  | some g => if g = 0 then "80" else natStr g
  | none => "80"

/-- The `laize_str` computation of `generate_article_code`: `"L" + laize`
when truthy, else empty. -/
def laizeStrOf (laize : Option ℕ) : String :=
  match laize with
  | some l => if l = 0 then "" else "L" ++ natStr l
  | none => ""

/-- The `supplier_code` computation of `generate_article_code`: the code of
the first `SUPPLIERS` key occurring in the lowercased input, else empty. -/
def supplierCodeOf (supplier : Option String) : String :=
  match supplier with
  | some s =>
    if s = "" then ""
    else
      match SUPPLIERS.find? (fun kv => containsS kv.1 (pyLower s)) with
      | some kv => kv.2
      | none => ""
  | none => ""

/-- `generate_article_code` of `article_codes.py`. -/
def generate_article_code (paper_type : Option String) (grammage laize : Option ℕ)
    (supplier : Option String) : String :=
  typeCodeOf paper_type ++ gramOf grammage ++ laizeStrOf laize ++ supplierCodeOf supplier

/-- Result record of `parse_article_code`. -/
structure ParsedCode where
  paper_type : Option String
  grammage : Option ℕ
  laize : Option ℕ
  supplier : Option String
  raw_code : String
deriving DecidableEq

/-- Paper-type stage of `parse_article_code`: `code.startswith("KB")` /
`"KE"`, stripping the matched two characters. -/
def parsePaper (cs : List Char) : Option String × List Char :=
  if cs.take 2 = ['K', 'B'] then (some "Kraft Blanchi", cs.drop 2)
  else if cs.take 2 = ['K', 'E'] then (some "Kraft Écru", cs.drop 2)
  else (none, cs)

/-- Grammage stage: `re.match(r"(\d+)", code)`, consuming the digit run. -/
def parseGram (cs : List Char) : Option ℕ × List Char :=
  if (cs.takeWhile isAsciiDigit).isEmpty then (none, cs)
  else (some (digitsToNat (cs.takeWhile isAsciiDigit)), cs.dropWhile isAsciiDigit)

/-- Laize stage: `re.match(r"L(\d+)", code)`, consuming `L` plus a digit run
only when at least one digit follows the `L`. -/
def parseLaize (cs : List Char) : Option ℕ × List Char :=
  match cs with
  | [] => (none, [])
  | c :: rest =>
    if c = 'L' then
      if (rest.takeWhile isAsciiDigit).isEmpty then (none, c :: rest)
      else (some (digitsToNat (rest.takeWhile isAsciiDigit)), rest.dropWhile isAsciiDigit)
    else (none, c :: rest)

/-- Supplier stage: the whole remainder, looked up against `SUPPLIERS` by
exact short-code equality; on a miss the raw remainder is kept verbatim. -/
def parseSupplier (cs : List Char) : Option String :=
  if cs.isEmpty then none
  else
    match SUPPLIERS.find? (fun kv => kv.2 == String.mk cs) with
    | some kv => some (pyCapitalize kv.1)
    | none => some (String.mk cs)

/-- `parse_article_code` of `article_codes.py`; `none` input models Python
`None` and, like `""`, is rejected by the leading `if not code` check. -/
def parse_article_code (code : Option String) : Option ParsedCode :=
  match code with
  | none => none
  | some s =>
    if s = "" then none
    else
      some { paper_type := (parsePaper s.toList).1,
             grammage := (parseGram (parsePaper s.toList).2).1,
             laize := (parseLaize (parseGram (parsePaper s.toList).2).2).1,
             supplier := parseSupplier (parseLaize (parseGram (parsePaper s.toList).2).2).2,
             raw_code := s }

/-- The attribute quadruple of a parse result (everything except `raw_code`). -/
def attrsOf (r : ParsedCode) : Option String × Option ℕ × Option ℕ × Option String :=
  (r.paper_type, r.grammage, r.laize, r.supplier)

/-- Decode a code string to its attribute quadruple. -/
def decodeAttrs (c : String) : Option (Option String × Option ℕ × Option ℕ × Option String) :=
  (parse_article_code (some c)).map attrsOf

/-- Re-encode the decoded attributes of a code string. -/
def reencode (c : String) : Option String :=
  (parse_article_code (some c)).map (fun r => generate_article_code r.paper_type r.grammage r.laize r.supplier)

/-- The laize portion of a code produced by `generate_article_code`. -/
def lzChars : Option ℕ → List Char
  | none => []
  | some l => 'L' :: natDigits l

/-- The two possible paper-type segments of a generated code, paired with the
paper-type name that decoding maps them back to. -/
abbrev PaperSeg (tl : List Char) (pt : Option String) : Prop :=
  (tl = ['K', 'B'] ∧ pt = some "Kraft Blanchi") ∨ (tl = ['K', 'E'] ∧ pt = some "Kraft Écru")

/-- The six possible supplier segments of a generated code, paired with the
supplier name that decoding maps them back to. -/
abbrev SupplierSeg (sc : List Char) (sup : Option String) : Prop :=
  (sc = [] ∧ sup = none) ∨
  (sc = ['M', 'O', 'N'] ∧ sup = some "Mondi") ∨
  (sc = ['N', 'O', 'R'] ∧ sup = some "Nordic") ∨
  (sc = ['B', 'I', 'L'] ∧ sup = some "Billerud") ∨
  (sc = ['S', 'M', 'U'] ∧ sup = some "Smurfit") ∨
  (sc = ['S', 'T', 'D'] ∧ sup = some "Default")

/-- The supplier hint (if any) resolves against the known supplier table
(the loop in `generate_article_code` finds a key occurring in the lowercased
hint); blank or absent hints count as "no supplier". -/
def supplierKnown (s : Option String) : Bool :=
  match s with
  | none => true
  | some t => t == "" || (SUPPLIERS.find? (fun kv => containsS kv.1 (pyLower t))).isSome

/-- A row of the `clients` table (the columns the claims are about; `nom` is
NOT NULL, contact columns are nullable). -/
structure Client where
  id : ℕ
  nom : String
  email : Option String
  telephone : Option String
deriving DecidableEq

/-- A row of the `commandes` table (the columns the claims are about; the
REAL quantity columns are nullable, since an update may write NULL). -/
structure Order where
  id : ℕ
  numero_commande : Option String
  client_id : ℕ
  code_client : String
  produit_id : Option ℕ
  quantite : Option ℚ
  quantite_livree : Option ℚ
  reste_a_livrer : Option ℚ
  email_id : Option String
deriving DecidableEq

/-- The SQLite storage state: rows in insertion (rowid) order.  Rows are never
physically deleted, so the next AUTOINCREMENT id is `length + 1`. -/
structure DB where
  clients : List Client
  orders : List Order
deriving DecidableEq

/-- `PRODUCT_CATALOG` of `database.py` (id and type). -/
def PRODUCT_CATALOG : List (ℕ × String) :=
  [(1, "Sachets fond plat"), (2, "Sac fond carré sans poignées"),
   (3, "Sac fond carré avec poignées plates"), (4, "Sac fond carré avec poignées torsadées")]

/-- SQLite `type LIKE '%name%'`: ASCII-case-insensitive substring match. -/
def sqlLike (name typ : String) : Bool := containsS (asciiLower name) (asciiLower typ)

/-- `get_product_by_type`: first catalog row whose type contains the name. -/
def get_product_by_type (type_name : String) : Option (ℕ × String) :=
  PRODUCT_CATALOG.find? (fun p => sqlLike type_name p.2)

/-- The `WHERE LOWER(nom) = LOWER(?)` lookup predicate of
`get_or_create_client` (SQLite `LOWER` is ASCII-only). -/
def nameMatches (nom : String) (c : Client) : Bool := asciiLower c.nom == asciiLower nom

/-- `DatabaseManager.get_or_create_client`.  Returns the Python return value —
for a found row this is `dict(client)`, the snapshot fetched before the
opportunistic telephone backfill — together with the post-call state. -/
def get_or_create_client (db : DB) (nom : String) (email telephone : Option String) :
    Client × DB :=
  let nom := if pyStrip nom = "" then orElseS email (orElseS telephone "Client Inconnu") else nom
  if nom ≠ "" ∧ ¬ pyStartsWith nom "Client WhatsApp" ∧ ¬ pyStartsWith nom "Client Inconnu" then
    match db.clients.find? (nameMatches nom) with
    | some c =>
      if ¬ strFalsy telephone ∧ strFalsy c.telephone then
        (c, { db with clients :=
              db.clients.map (fun x =>
                if x.id = c.id then { x with telephone := telephone } else x) })
      else (c, db)
    | none =>
      let newc : Client := { id := db.clients.length + 1, nom := nom, email := email,
                             telephone := telephone }
      (newc, { db with clients := db.clients ++ [newc] })
  else
    match (if ¬ strFalsy telephone then db.clients.find? (fun c => c.telephone == telephone)
           else none) with
    | some c => (c, db)
    | none =>
      match (if ¬ strFalsy email then db.clients.find? (fun c => c.email == email)
             else none) with
      | some c => (c, db)
      | none =>
        let newc : Client := { id := db.clients.length + 1, nom := nom, email := email,
                               telephone := telephone }
        (newc, { db with clients := db.clients ++ [newc] })

/-- Input dict of `create_order` (the keys the embedding uses; an absent key
is `none`). -/
structure OrderData where
  numero_commande : Option String := none
  email_id : Option String := none
  entreprise_cliente : Option String := none
  email_from : Option String := none
  whatsapp_from : Option String := none
  type_produit : Option String := none
  code_client : Option String := none
  quantite : Option ℚ := none
  quantite_livree : Option ℚ := none
deriving DecidableEq

/-- The `create_order` dedup lookup on `numero_commande` (skipped when the
key is falsy). -/
def findByNumero (db : DB) (num : Option String) : Option Order :=
  match num with
  | some n => if n = "" then none else db.orders.find? (fun o => o.numero_commande == some n)
  | none => none

/-- The `create_order` dedup lookup on `email_id` (skipped when the key is
falsy). -/
def findByEmailId (db : DB) (em : Option String) : Option Order :=
  match em with
  | some e => if e = "" then none else db.orders.find? (fun o => o.email_id == some e)
  | none => none

/-- Python `str(n).zfill(5)`. -/
def zfill5 (n : ℕ) : String :=
  String.mk (List.replicate (5 - (natDigits n).length) '0' ++ natDigits n)

/-- The `client_email` derivation of `create_order`:
`email_from or whatsapp_from`. -/
def resolveClientEmail (od : OrderData) : Option String := pyOrOpt od.email_from od.whatsapp_from

/-- The `client_phone` derivation of `create_order`: the WhatsApp sender with
its `whatsapp:` tag stripped, when present. -/
def resolveClientPhone (od : OrderData) : Option String :=
  if ¬ strFalsy od.whatsapp_from then
    some ((od.whatsapp_from.getD "").replace "whatsapp:" "")
  else none

/-- The `client_name` derivation of `create_order`: the extracted company
name, else a synthesized WhatsApp placeholder, else the contact address, else
the generic unknown-client placeholder. -/
def resolveClientName (od : OrderData) : String :=
  if strFalsy od.entreprise_cliente ∨ pyStrip (od.entreprise_cliente.getD "") = "" then
    (if ¬ strFalsy (resolveClientPhone od) then
      "Client WhatsApp " ++ (resolveClientPhone od).getD ""
     else orElseS (resolveClientEmail od) "Client Inconnu")
  else od.entreprise_cliente.getD ""

/-- The product lookup of `create_order` (only for a truthy `type_produit`). -/
def productOf (od : OrderData) : Option (ℕ × String) :=
  match od.type_produit with
  | some t => if t = "" then none else get_product_by_type t
  | none => none

/-- The insertion path of `create_order`, reached after both dedup lookups
missed: resolve the client, look up the product, derive `reste_a_livrer =
quantite - quantite_livree` (falsy values coalesced to 0), insert the row and
return `lastrowid`. -/
def insertOrder (db : DB) (od : OrderData) : ℕ × DB :=
  let cres := get_or_create_client db (resolveClientName od) (resolveClientEmail od)
    (resolveClientPhone od)
  let newo : Order :=
    { id := cres.2.orders.length + 1,
      numero_commande := od.numero_commande,
      client_id := cres.1.id,
      code_client := orElseS od.code_client ("CL" ++ zfill5 cres.1.id),
      produit_id := (productOf od).map (fun p => p.1),
      quantite := some (pyOr0 od.quantite),
      quantite_livree := some (pyOr0 od.quantite_livree),
      reste_a_livrer := some (pyOr0 od.quantite - pyOr0 od.quantite_livree),
      email_id := od.email_id }
  (cres.2.orders.length + 1, { clients := cres.2.clients, orders := cres.2.orders ++ [newo] })

/-- `DatabaseManager.create_order`: idempotency check by business order
number, then by email id, else insert; returns the new or pre-existing order
id. -/
def create_order (db : DB) (od : OrderData) : ℕ × DB :=
  match findByNumero db od.numero_commande with
  | some o => (o.id, db)
  | none =>
    match findByEmailId db od.email_id with
    | some o => (o.id, db)
    | none => insertOrder db od

/-- `get_order`: the row with the given id. -/
def get_order (db : DB) (oid : ℕ) : Option Order :=
  db.orders.find? (fun o => o.id == oid)

/-- The update dict accepted by the order-update API, restricted to the
quantity fields the claim is about: the outer `Option` is key presence, the
inner `Option` a possibly-null JSON value. -/
structure OrderUpdates where
  quantite : Option (Option ℚ) := none
  quantite_livree : Option (Option ℚ) := none
  reste_a_livrer : Option (Option ℚ) := none
deriving DecidableEq

/-- The SET clause of `update_order` applied to one row. -/
def applyUpdates (o : Order) (u : OrderUpdates) : Order :=
  { o with quantite := u.quantite.getD o.quantite,
           quantite_livree := u.quantite_livree.getD o.quantite_livree,
           reste_a_livrer := u.reste_a_livrer.getD o.reste_a_livrer }

/-- `DatabaseManager.update_order`: `UPDATE commandes SET ... WHERE id = ?`. -/
def update_order (db : DB) (oid : ℕ) (u : OrderUpdates) : DB :=
  { db with orders := db.orders.map (fun o => if o.id = oid then applyUpdates o u else o) }

/-- `api_update_order` of `app.py`: when the update touches `quantite` or
`quantite_livree`, refetch the order and recompute `reste_a_livrer` from the
new value if supplied else the stored one, each coalesced to 0 by `or 0`;
`none` models the AttributeError raised when that refetch finds no order. -/
def api_update_order (db : DB) (oid : ℕ) (u : OrderUpdates) : Option DB :=
  if u.quantite.isSome || u.quantite_livree.isSome then
    match get_order db oid with
    | none => none
    | some o =>
      let q := pyOr0 (u.quantite.getD o.quantite)
      let l := pyOr0 (u.quantite_livree.getD o.quantite_livree)
      some (update_order db oid { u with reste_a_livrer := some (some (q - l)) })
  else
    some (update_order db oid u)

/-- Strip the combining accent of a Latin letter: models
`unicodedata.normalize("NFD", name)` followed by dropping the `Mn` marks, for
the accented Latin-1 letters occurring in this data. -/
def stripAccent (c : Char) : Char :=
  if c = 'é' ∨ c = 'è' ∨ c = 'ê' ∨ c = 'ë' then 'e'
  else if c = 'à' ∨ c = 'â' then 'a'
  else if c = 'î' ∨ c = 'ï' then 'i'
  else if c = 'ô' then 'o'
  else if c = 'ù' ∨ c = 'û' ∨ c = 'ü' then 'u'
  else if c = 'ç' then 'c'
  else c

/-- One character of `normalize_client_name`: lowercase, strip the accent,
drop apostrophes and dots, turn hyphens into spaces. -/
def normChar (c : Char) : Option Char :=
  let c2 := stripAccent (pyLowerChar c)
  if c2 = '\'' ∨ c2 = '.' then none
  else if c2 = '-' then some ' '
  else some c2

/-- `DataExtractor.normalize_client_name`. -/
def normalize_client_name (name : String) : String :=
  pyStrip (String.mk (name.toList.filterMap normChar))

/-- Helper for `pyTokens`: split on whitespace runs, accumulating the current
token reversed. -/
def tokensAux : List Char → List Char → List String
  | [], acc => if acc.isEmpty then [] else [String.mk acc.reverse]
  | c :: rest, acc =>
    if c.isWhitespace then
      (if acc.isEmpty then tokensAux rest [] else String.mk acc.reverse :: tokensAux rest [])
    else tokensAux rest (c :: acc)

/-- Python `str.split()`: whitespace-separated tokens, no empty tokens. -/
def pyTokens (s : String) : List String := tokensAux s.toList []

/-- The token-overlap set of `find_matching_client` for one candidate:
`search_words & client_words` over normalized names (`sN` is the normalized
search name). -/
def candOverlap (sN : String) (c : Client) : Finset String :=
  (pyTokens sN).toFinset ∩ (pyTokens (normalize_client_name c.nom)).toFinset

/-- The per-candidate score of `find_matching_client`:
`|intersection| / max(|search_words|, |client_words|)`, plus a `0.3` bonus
when some search token longer than 3 characters occurs in the candidate's
normalized name.  (Python iterates the token set; `List.any` over the token
list has the same truth value.) -/
def candScore (sN : String) (c : Client) : ℚ :=
  let sW := (pyTokens sN).toFinset
  let cN := normalize_client_name c.nom
  let cW := (pyTokens cN).toFinset
  let base : ℚ := ((sW ∩ cW).card : ℚ) / ((max sW.card cW.card : ℕ) : ℚ)
  if (pyTokens sN).any (fun w => decide (w.length > 3) && containsS w cN) then base + 3 / 10
  else base

/-- One iteration of the `find_matching_client` loop: the score is computed
and compared only when the overlap is non-empty (`if common_words:`). -/
def codeStep (sN : String) (best : Option Client × ℚ) (c : Client) : Option Client × ℚ :=
  if (candOverlap sN c).Nonempty then
    (if candScore sN c > best.2 then (some c, candScore sN c) else best)
  else best

/-- `DataExtractor.find_matching_client`: fold the loop over the stored
clients in rowid (first-seen) order, starting from `best_match = None`,
`best_score = 0`; return the best candidate's name if its score exceeds
`0.3`. -/
def find_matching_client (clients : List Client) (search_name : String) : Option String :=
  let sN := normalize_client_name search_name
  let res := clients.foldl (codeStep sN) (none, 0)
  match res.1 with
  | some c => if res.2 > 3 / 10 then some c.nom else none
  | none => none

/-- Modelled from the spec's words (the claim's algorithm, to be compared
with `find_matching_client`): compute the token-overlap score plus bonus for
every identity, keep the highest-scoring candidate with ties broken by
first-seen order, and return it only if its score exceeds 0.3. -/
def specStep (sN : String) (best : Option (Client × ℚ)) (c : Client) : Option (Client × ℚ) :=
  match best with
  | none => some (c, candScore sN c)
  | some (_, bs) => if candScore sN c > bs then some (c, candScore sN c) else best

/-- Modelled from the spec's words: the `fuzzy_find` algorithm as the claim
states it, scoring every candidate (bonus included even without overlap). -/
def fuzzy_find_spec (clients : List Client) (search_name : String) : Option String :=
  let sN := normalize_client_name search_name
  let best := clients.foldl (specStep sN) none
  match best with
  | some (c, s) => if s > 3 / 10 then some c.nom else none
  | none => none

/-- The simulation invariant between the loop state of
`find_matching_client` and the all-candidates maximum of the spec algorithm:
above the 0.3 threshold the two states agree exactly; at or below it the
code's best score is also at or below the threshold. -/
def StepInv (cs : Option Client × ℚ) (ss : Option (Client × ℚ)) : Prop :=
  match ss with
  | none => cs = (none, 0)
  | some (c, s) => (s > 3 / 10 → cs = (some c, s)) ∧ (s ≤ 3 / 10 → cs.2 ≤ 3 / 10)

/-- The draft dict flowing through `extract_from_email` (the keys the claims
are about; `confiance` is the extractor's 0-100 integer score, absent when
the extractor returned null). -/
structure Draft where
  entreprise_cliente : Option String := none
  type_produit : Option String := none
  nature_produit : Option String := none
  quantite : Option ℚ := none
  unite : Option String := none
  prix_unitaire : Option ℚ := none
  prix_total : Option ℚ := none
  devise : Option String := none
  confiance : Option ℤ := none
  informations_supplementaires : Option String := none
  filled_from_history : Bool := false
  history_fields : List String := []
  history_source_order : Option String := none
  est_bon_commande : Bool := false
  is_reorder : Bool := false
deriving DecidableEq

/-- The historical order row joined with its product type and canonical
client name, as fetched by `get_client_last_order`. -/
structure HistOrder where
  id : ℕ := 0
  numero_commande : Option String := none
  client_nom : Option String := none
  produit_type : Option String := none
  nature_produit : Option String := none
  quantite : Option ℚ := none
  unite : Option String := none
  prix_unitaire : Option ℚ := none
  prix_total : Option ℚ := none
  devise : Option String := none
deriving DecidableEq

/-- The per-field copies of `fill_from_history`: each mapped field receives
the historical value when the draft value is falsy and the historical value
truthy (`if not extracted_data.get(new_field) and last_order.get(old_field)`). -/
def fillDraft (d : Draft) (h : HistOrder) : Draft :=
  { d with
    type_produit := if strFalsy d.type_produit && !strFalsy h.produit_type
      then h.produit_type else d.type_produit,
    nature_produit := if strFalsy d.nature_produit && !strFalsy h.nature_produit
      then h.nature_produit else d.nature_produit,
    quantite := if ratFalsy d.quantite && !ratFalsy h.quantite
      then h.quantite else d.quantite,
    unite := if strFalsy d.unite && !strFalsy h.unite then h.unite else d.unite,
    prix_unitaire := if ratFalsy d.prix_unitaire && !ratFalsy h.prix_unitaire
      then h.prix_unitaire else d.prix_unitaire,
    prix_total := if ratFalsy d.prix_total && !ratFalsy h.prix_total
      then h.prix_total else d.prix_total,
    devise := if strFalsy d.devise && !strFalsy h.devise then h.devise else d.devise }

/-- The `filled_fields` list accumulated by the `fill_from_history` loop, in
the fixed mapping order. -/
def filledFields (d : Draft) (h : HistOrder) : List String :=
  (if strFalsy d.type_produit && !strFalsy h.produit_type then ["type_produit"] else []) ++
  (if strFalsy d.nature_produit && !strFalsy h.nature_produit then ["nature_produit"] else []) ++
  (if ratFalsy d.quantite && !ratFalsy h.quantite then ["quantite"] else []) ++
  (if strFalsy d.unite && !strFalsy h.unite then ["unite"] else []) ++
  (if ratFalsy d.prix_unitaire && !ratFalsy h.prix_unitaire then ["prix_unitaire"] else []) ++
  (if ratFalsy d.prix_total && !ratFalsy h.prix_total then ["prix_total"] else []) ++
  (if strFalsy d.devise && !strFalsy h.devise then ["devise"] else [])

/-- `DataExtractor.fill_from_history`: copy missing fields from the client's
last order; when anything was copied set the provenance flags, record the
copied field names, record the source order, prepend the autofill note, and
raise `confiance` to the floor of 85 when lower (`confiance` read with
default 0). -/
def fill_from_history (d : Draft) (h : HistOrder) : Draft :=
  if filledFields d h = [] then fillDraft d h
  else
    { fillDraft d h with
      filled_from_history := true,
      history_fields := filledFields d h,
      history_source_order := some (orElseS h.numero_commande ("ID-" ++ natStr h.id)),
      informations_supplementaires := some ("[AUTO-REMPLI depuis historique: " ++
        String.intercalate ", " (filledFields d h) ++ "] " ++
        (d.informations_supplementaires.getD "")),
      confiance := if d.confiance.getD 0 < 85 then some 85 else d.confiance }

/-- The deterministic tail of the reorder branch of
`DataExtractor.extract_from_email`, entered when the classifier reported a
reorder with a candidate name and a historical order was located: override
the extracted customer name with the canonical database name (falling back to
the detected name), backfill from history, and force the validity and reorder
flags. -/
def apply_reorder (extracted : Draft) (last_order : HistOrder) (detected_name : String) :
    Draft :=
  { fill_from_history
      { extracted with
        entreprise_cliente := some (orElseS last_order.client_nom detected_name) }
      last_order with
    est_bon_commande := true, is_reorder := true }

/-- The spec's reorder-inference example draft: all product fields null,
confidence 50. -/
def exampleDraft : Draft :=
  { entreprise_cliente := some "chhiwat fes", confiance := some 50 }

/-- The spec's reorder-inference example history row: one validated order of
5000 pièces of Sachets fond plat for the canonical client. -/
def exampleHist : HistOrder :=
  { id := 7, numero_commande := some "BC-2024-001",
    client_nom := some "SARL Les Délices du Maroc",
    produit_type := some "Sachets fond plat", quantite := some 5000,
    unite := some "pièces" }

/-! ## Lemmas and claim theorems -/

theorem digitChar_isDigit {k : ℕ} (h : k < 10) : isAsciiDigit (digitChar k) = true := by
  interval_cases k <;> decide

theorem digitChar_val {k : ℕ} (h : k < 10) : (digitChar k).toNat - 48 = k := by
  interval_cases k <;> decide

theorem natDigitsAux_ne_nil {fuel n : ℕ} (h : n < fuel) : natDigitsAux fuel n ≠ [] := by
  cases fuel with
  | zero => omega
  | succ f =>
    unfold natDigitsAux
    split
    · simp
    · simp

theorem natDigitsAux_digits {fuel n : ℕ} (h : n < fuel) :
    ∀ c ∈ natDigitsAux fuel n, isAsciiDigit c = true := by
  induction fuel generalizing n with
  | zero => omega
  | succ f ih =>
    unfold natDigitsAux
    split
    · next hlt =>
      intro c hc
      simp only [List.mem_singleton] at hc
      subst hc
      exact digitChar_isDigit hlt
    · next hge =>
      intro c hc
      rw [List.mem_append] at hc
      have hd : n / 10 < f := by
        have h1 : n / 10 < n := Nat.div_lt_self (by omega) (by omega)
        omega
      rcases hc with hc | hc
      · exact ih hd c hc
      · simp only [List.mem_singleton] at hc
        subst hc
        exact digitChar_isDigit (Nat.mod_lt _ (by omega))

theorem digitsToNat_append_single (l : List Char) (c : Char) :
    digitsToNat (l ++ [c]) = 10 * digitsToNat l + (c.toNat - 48) := by
  unfold digitsToNat
  rw [List.foldl_append]
  rfl

theorem natDigitsAux_val {fuel n : ℕ} (h : n < fuel) : digitsToNat (natDigitsAux fuel n) = n := by
  induction fuel generalizing n with
  | zero => omega
  | succ f ih =>
    unfold natDigitsAux
    split
    · next hlt =>
      show digitsToNat [digitChar n] = n
      unfold digitsToNat
      simp only [List.foldl_cons, List.foldl_nil]
      rw [Nat.mul_zero, Nat.zero_add]
      exact digitChar_val hlt
    · next hge =>
      have hd : n / 10 < f := by
        have h1 : n / 10 < n := Nat.div_lt_self (by omega) (by omega)
        omega
      rw [digitsToNat_append_single, ih hd, digitChar_val (Nat.mod_lt _ (by omega))]
      omega

theorem natDigits_ne_nil (n : ℕ) : natDigits n ≠ [] := natDigitsAux_ne_nil (Nat.lt_succ_self n)

theorem natDigits_digits (n : ℕ) : ∀ c ∈ natDigits n, isAsciiDigit c = true :=
  natDigitsAux_digits (Nat.lt_succ_self n)

theorem natDigits_val (n : ℕ) : digitsToNat (natDigits n) = n :=
  natDigitsAux_val (Nat.lt_succ_self n)

theorem natDigits_isEmpty (n : ℕ) : (natDigits n).isEmpty = false := by
  cases hnd : natDigits n with
  | nil => exact absurd hnd (natDigits_ne_nil n)
  | cons a t => rfl

theorem takeWhile_append_all {p : Char → Bool} {l1 l2 : List Char} (h : ∀ a ∈ l1, p a = true) :
    (l1 ++ l2).takeWhile p = l1 ++ l2.takeWhile p := by
  induction l1 with
  | nil => simp
  | cons a t ih =>
    simp only [List.cons_append]
    rw [List.takeWhile_cons_of_pos (h a (by simp)), ih (fun b hb => h b (by simp [hb]))]

theorem dropWhile_append_all {p : Char → Bool} {l1 l2 : List Char} (h : ∀ a ∈ l1, p a = true) :
    (l1 ++ l2).dropWhile p = l2.dropWhile p := by
  induction l1 with
  | nil => simp
  | cons a t ih =>
    simp only [List.cons_append]
    rw [List.dropWhile_cons_of_pos (h a (by simp)), ih (fun b hb => h b (by simp [hb]))]

theorem dropWhile_of_takeWhile_nil {p : Char → Bool} {l : List Char}
    (h : l.takeWhile p = []) : l.dropWhile p = l := by
  cases l with
  | nil => rfl
  | cons a t =>
    by_cases hp : p a
    · rw [List.takeWhile_cons_of_pos hp] at h
      cases h
    · exact List.dropWhile_cons_of_neg hp

theorem takeWhile_digit_head {c : Char} {xs : List Char} (h : isAsciiDigit c = false) :
    ((c :: xs).takeWhile isAsciiDigit) = [] :=
  List.takeWhile_cons_of_neg (by simp [h])

theorem toList_mk (l : List Char) : (String.mk l).toList = l := rfl

theorem mk_cons_ne_empty (c : Char) (cs : List Char) : String.mk (c :: cs) ≠ "" := by
  intro h
  have h2 : (String.mk (c :: cs)).toList = ("" : String).toList := by rw [h]
  simp only [String.toList] at h2
  cases h2

theorem parseGram_digits (G : ℕ) (l2 : List Char) (h : l2.takeWhile isAsciiDigit = []) :
    parseGram (natDigits G ++ l2) = (some G, l2) := by
  unfold parseGram
  rw [takeWhile_append_all (natDigits_digits G), h, List.append_nil, natDigits_isEmpty,
      natDigits_val, dropWhile_append_all (natDigits_digits G), dropWhile_of_takeWhile_nil h]
  simp

theorem parseLaize_digits (L : ℕ) (l2 : List Char) (h : l2.takeWhile isAsciiDigit = []) :
    parseLaize ('L' :: (natDigits L ++ l2)) = (some L, l2) := by
  simp only [parseLaize, if_true]
  rw [takeWhile_append_all (natDigits_digits L), h, List.append_nil,
      natDigits_isEmpty, natDigits_val,
      dropWhile_append_all (natDigits_digits L), dropWhile_of_takeWhile_nil h]
  simp

/-- Central decomposition lemma: parsing a code of the canonical shape
`[KB|KE] ++ digits ++ (L ++ digits)? ++ supplier-code?` recovers each
component. -/
theorem parse_shape (tl : List Char) (pt : Option String) (G : ℕ) (lz : Option ℕ)
    (sc : List Char) (sup : Option String)
    (htc : PaperSeg tl pt)
    (hsc : SupplierSeg sc sup) :
    parse_article_code (some (String.mk (tl ++ natDigits G ++ lzChars lz ++ sc))) =
      some ⟨pt, some G, lz, sup, String.mk (tl ++ natDigits G ++ lzChars lz ++ sc)⟩ := by
  have hscTW : sc.takeWhile isAsciiDigit = [] := by
    rcases hsc with ⟨rfl, _⟩ | ⟨rfl, _⟩ | ⟨rfl, _⟩ | ⟨rfl, _⟩ | ⟨rfl, _⟩ | ⟨rfl, _⟩ <;> decide
  have hLpart : (lzChars lz ++ sc).takeWhile isAsciiDigit = [] := by
    cases lz with
    | none => simpa [lzChars] using hscTW
    | some l => exact takeWhile_digit_head (by decide)
  have hlaize : parseLaize (lzChars lz ++ sc) = (lz, sc) := by
    cases lz with
    | none =>
      simp only [lzChars, List.nil_append]
      rcases hsc with ⟨rfl, _⟩ | ⟨rfl, _⟩ | ⟨rfl, _⟩ | ⟨rfl, _⟩ | ⟨rfl, _⟩ | ⟨rfl, _⟩ <;> rfl
    | some l =>
      simpa [lzChars, List.cons_append, List.append_assoc] using parseLaize_digits l sc hscTW
  have hsup : parseSupplier sc = sup := by
    rcases hsc with ⟨rfl, rfl⟩ | ⟨rfl, rfl⟩ | ⟨rfl, rfl⟩ | ⟨rfl, rfl⟩ | ⟨rfl, rfl⟩ | ⟨rfl, rfl⟩ <;> rfl
  have hgram := parseGram_digits G (lzChars lz ++ sc) hLpart
  rcases htc with ⟨rfl, rfl⟩ | ⟨rfl, rfl⟩
  · have hpp : parsePaper ('K' :: 'B' :: (natDigits G ++ (lzChars lz ++ sc))) =
        (some "Kraft Blanchi", natDigits G ++ (lzChars lz ++ sc)) := rfl
    simp only [parse_article_code, List.cons_append, List.nil_append, List.append_assoc]
    rw [if_neg (mk_cons_ne_empty _ _)]
    simp only [toList_mk, hpp, hgram, hlaize, hsup]
  · have hpp : parsePaper ('K' :: 'E' :: (natDigits G ++ (lzChars lz ++ sc))) =
        (some "Kraft Écru", natDigits G ++ (lzChars lz ++ sc)) := rfl
    simp only [parse_article_code, List.cons_append, List.nil_append, List.append_assoc]
    rw [if_neg (mk_cons_ne_empty _ _)]
    simp only [toList_mk, hpp, hgram, hlaize, hsup]

theorem generate_toList (pt : Option String) (g l : Option ℕ) (s : Option String) :
    generate_article_code pt g l s =
      String.mk ((typeCodeOf pt).toList ++ (gramOf g).toList ++ (laizeStrOf l).toList ++
        (supplierCodeOf s).toList) := rfl

theorem typeCodeOf_canon (pt : Option String) :
    ∃ tl name, (typeCodeOf pt).toList = tl ∧ PaperSeg tl (some name) ∧
      (typeCodeOf (some name)).toList = tl := by
  have hKB : ∃ tl name, ("KB" : String).toList = tl ∧ PaperSeg tl (some name) ∧
      (typeCodeOf (some name)).toList = tl :=
    ⟨['K', 'B'], "Kraft Blanchi", rfl, Or.inl ⟨rfl, rfl⟩, by decide⟩
  have hKE : ∃ tl name, ("KE" : String).toList = tl ∧ PaperSeg tl (some name) ∧
      (typeCodeOf (some name)).toList = tl :=
    ⟨['K', 'E'], "Kraft Écru", rfl, Or.inr ⟨rfl, rfl⟩, by decide⟩
  cases pt with
  | none => exact hKE
  | some p =>
    simp only [typeCodeOf]
    by_cases hp : p = ""
    · rw [if_pos hp]; exact hKE
    · rw [if_neg hp]
      cases hfind : PAPER_TYPES.find? (fun kv => containsS kv.1 (pyLower p)) with
      | none => exact hKE
      | some kv =>
        have hm := List.mem_of_find?_eq_some hfind
        simp only [PAPER_TYPES, List.mem_cons, List.not_mem_nil, or_false] at hm
        rcases hm with rfl | rfl | rfl | rfl | rfl | rfl
        · exact hKB
        · exact hKE
        · exact hKE
        · exact hKE
        · exact hKB
        · exact hKE

theorem gramOf_canon (g : Option ℕ) :
    ∃ G, G ≠ 0 ∧ (gramOf g).toList = natDigits G ∧ (gramOf (some G)).toList = natDigits G := by
  cases g with
  | none => exact ⟨80, by decide, rfl, rfl⟩
  | some k =>
    by_cases hk : k = 0
    · subst hk; exact ⟨80, by decide, rfl, rfl⟩
    · refine ⟨k, hk, ?_, ?_⟩ <;> simp [gramOf, hk, natStr]

theorem laizeStrOf_canon (l : Option ℕ) :
    ∃ lz, (laizeStrOf l).toList = lzChars lz ∧ (laizeStrOf lz).toList = lzChars lz := by
  cases l with
  | none => exact ⟨none, rfl, rfl⟩
  | some k =>
    by_cases hk : k = 0
    · subst hk; exact ⟨none, rfl, rfl⟩
    · refine ⟨some k, ?_, ?_⟩ <;> simp [laizeStrOf, hk, natStr, lzChars]

theorem supplierCodeOf_canon (s : Option String) (h : supplierKnown s = true) :
    ∃ sc sup, (supplierCodeOf s).toList = sc ∧ SupplierSeg sc sup ∧
      (supplierCodeOf sup).toList = sc := by
  cases s with
  | none => exact ⟨[], none, rfl, Or.inl ⟨rfl, rfl⟩, rfl⟩
  | some t =>
    by_cases ht : t = ""
    · subst ht
      exact ⟨[], none, rfl, Or.inl ⟨rfl, rfl⟩, rfl⟩
    · simp only [supplierCodeOf]
      rw [if_neg ht]
      cases hfind : SUPPLIERS.find? (fun kv => containsS kv.1 (pyLower t)) with
      | none =>
        exfalso
        simp only [supplierKnown, Bool.or_eq_true, beq_iff_eq, Option.isSome_iff_exists] at h
        rcases h with h | ⟨kv, h⟩
        · exact ht h
        · rw [hfind] at h; cases h
      | some kv =>
        have hm := List.mem_of_find?_eq_some hfind
        simp only [SUPPLIERS, List.mem_cons, List.not_mem_nil, or_false] at hm
        rcases hm with rfl | rfl | rfl | rfl | rfl
        · exact ⟨['M', 'O', 'N'], some "Mondi", rfl, Or.inr (Or.inl ⟨rfl, rfl⟩), by decide⟩
        · exact ⟨['N', 'O', 'R'], some "Nordic", rfl, Or.inr (Or.inr (Or.inl ⟨rfl, rfl⟩)), by decide⟩
        · exact ⟨['B', 'I', 'L'], some "Billerud", rfl,
            Or.inr (Or.inr (Or.inr (Or.inl ⟨rfl, rfl⟩))), by decide⟩
        · exact ⟨['S', 'M', 'U'], some "Smurfit", rfl,
            Or.inr (Or.inr (Or.inr (Or.inr (Or.inl ⟨rfl, rfl⟩)))), by decide⟩
        · exact ⟨['S', 'T', 'D'], some "Default", rfl,
            Or.inr (Or.inr (Or.inr (Or.inr (Or.inr ⟨rfl, rfl⟩)))), by decide⟩

/-- Claim C2, counterexample: with all four attributes present in the raw
spelling actually fed to `generate_article_code` ("kraft blanchi", 100, 28,
"mondi"), decoding the generated code does not return the same attribute set:
decoding yields the canonical spellings "Kraft Blanchi" / "Mondi". -/
theorem claim_C2_counterexample :
    decodeAttrs (generate_article_code (some "kraft blanchi") (some 100) (some 28) (some "mondi")) ≠
      some (some "kraft blanchi", some 100, some 28, some "mondi") := by decide

/-- Claim C2 (amended): for attribute sets in canonical form — paper type one
of the two canonical names, nonzero grammage and laize, supplier one of the
five capitalized table names — decode is a left inverse of encode:
`decode(encode(A)) = A`. -/
theorem claim_C2_roundtrip (name sup : String) (G L : ℕ)
    (hname : name = "Kraft Blanchi" ∨ name = "Kraft Écru")
    (hG : G ≠ 0) (hL : L ≠ 0)
    (hsup : sup = "Mondi" ∨ sup = "Nordic" ∨ sup = "Billerud" ∨ sup = "Smurfit" ∨
      sup = "Default") :
    decodeAttrs (generate_article_code (some name) (some G) (some L) (some sup)) =
      some (some name, some G, some L, some sup) := by
  have htl : ∃ tl, PaperSeg tl (some name) ∧ (typeCodeOf (some name)).toList = tl := by
    rcases hname with rfl | rfl
    · exact ⟨['K', 'B'], Or.inl ⟨rfl, rfl⟩, by decide⟩
    · exact ⟨['K', 'E'], Or.inr ⟨rfl, rfl⟩, by decide⟩
  have hsc : ∃ sc, SupplierSeg sc (some sup) ∧ (supplierCodeOf (some sup)).toList = sc := by
    rcases hsup with rfl | rfl | rfl | rfl | rfl
    · exact ⟨['M', 'O', 'N'], Or.inr (Or.inl ⟨rfl, rfl⟩), by decide⟩
    · exact ⟨['N', 'O', 'R'], Or.inr (Or.inr (Or.inl ⟨rfl, rfl⟩)), by decide⟩
    · exact ⟨['B', 'I', 'L'], Or.inr (Or.inr (Or.inr (Or.inl ⟨rfl, rfl⟩))), by decide⟩
    · exact ⟨['S', 'M', 'U'], Or.inr (Or.inr (Or.inr (Or.inr (Or.inl ⟨rfl, rfl⟩)))), by decide⟩
    · exact ⟨['S', 'T', 'D'], Or.inr (Or.inr (Or.inr (Or.inr (Or.inr ⟨rfl, rfl⟩)))), by decide⟩
  obtain ⟨tl, htc, htl2⟩ := htl
  obtain ⟨sc, hsc6, hsc2⟩ := hsc
  have hgr : (gramOf (some G)).toList = natDigits G := by simp [gramOf, hG, natStr]
  have hlz : (laizeStrOf (some L)).toList = lzChars (some L) := by
    simp [laizeStrOf, hL, natStr, lzChars]
  unfold decodeAttrs
  rw [generate_toList, htl2, hsc2, hgr, hlz,
    parse_shape tl (some name) G (some L) sc (some sup) htc hsc6, Option.map_some']
  rfl

/-- Claim C2 witness: the amended round trip evaluated at the canonical
attribute set (Kraft Blanchi, 100, 28, Mondi). -/
theorem claim_C2_witness :
    decodeAttrs (generate_article_code (some "Kraft Blanchi") (some 100) (some 28) (some "Mondi")) =
      some (some "Kraft Blanchi", some 100, some 28, some "Mondi") :=
  claim_C2_roundtrip "Kraft Blanchi" "Mondi" 100 28 (Or.inl rfl) (by decide) (by decide)
    (Or.inl rfl)

/-- Claim C3: for every code produced by `generate_article_code` from an
attribute set whose supplier (if any) resolves against the known supplier
table, re-encoding the decoded attributes reproduces the code exactly. -/
theorem claim_C3_roundtrip (pt : Option String) (g l : Option ℕ) (s : Option String)
    (hs : supplierKnown s = true) :
    reencode (generate_article_code pt g l s) = some (generate_article_code pt g l s) := by
  obtain ⟨tl, name, htl1, htc, htl2⟩ := typeCodeOf_canon pt
  obtain ⟨G, hG, hg1, hg2⟩ := gramOf_canon g
  obtain ⟨lz, hlz1, hlz2⟩ := laizeStrOf_canon l
  obtain ⟨sc, sup, hsc1, hsc6, hsc2⟩ := supplierCodeOf_canon s hs
  have hgen : generate_article_code pt g l s =
      String.mk (tl ++ natDigits G ++ lzChars lz ++ sc) := by
    rw [generate_toList, htl1, hg1, hlz1, hsc1]
  unfold reencode
  rw [hgen, parse_shape tl (some name) G lz sc sup htc hsc6, Option.map_some']
  refine congrArg some ?_
  show generate_article_code (some name) (some G) lz sup = _
  rw [generate_toList, htl2, hg2, hlz2, hsc2]

/-- Claim C3 witness: the round trip evaluated for a draft naming supplier
"MONDI paper", whose lowercased form contains table key "mondi". -/
theorem claim_C3_witness :
    reencode (generate_article_code (some "kraft blanchi") (some 100) (some 28)
        (some "MONDI paper")) =
      some (generate_article_code (some "kraft blanchi") (some 100) (some 28)
        (some "MONDI paper")) :=
  claim_C3_roundtrip (some "kraft blanchi") (some 100) (some 28) (some "MONDI paper") (by decide)

/-- Claim C4, counterexample: for code "KB100L28XYZ", whose trailing segment
"XYZ" matches no supplier-table entry, decode does keep "XYZ" verbatim as the
supplier — but re-encoding the decoded attributes yields "KB100L28", which
does not reproduce the trailing characters, refuting the claim's second
conjunct. -/
theorem claim_C4_counterexample :
    decodeAttrs "KB100L28XYZ" = some (some "Kraft Blanchi", some 100, some 28, some "XYZ") ∧
    reencode "KB100L28XYZ" = some "KB100L28" ∧ ("KB100L28" : String) ≠ "KB100L28XYZ" := by
  decide

/-- Claim C4 (amended): for a code `[KB] ++ grammage ++ L ++ laize ++ tail`
whose trailing segment matches no supplier-table short code, decode keeps the
raw tail verbatim as the supplier field (and preserves the raw code), but
re-encoding the decoded attributes drops the tail entirely (rather than
reproducing it) whenever no supplier keyword occurs inside it. -/
theorem claim_C4_unknown_supplier (G L : ℕ) (tail : List Char) (hG : G ≠ 0) (hL : L ≠ 0)
    (hne : tail ≠ []) (hdig : tail.takeWhile isAsciiDigit = [])
    (hmiss : ∀ kv ∈ SUPPLIERS, kv.2 ≠ String.mk tail)
    (hnokey : ∀ kv ∈ SUPPLIERS, containsS kv.1 (pyLower (String.mk tail)) = false) :
    ∃ r, parse_article_code
        (some (String.mk (['K', 'B'] ++ natDigits G ++ 'L' :: natDigits L ++ tail))) = some r ∧
      r.supplier = some (String.mk tail) ∧
      r.raw_code = String.mk (['K', 'B'] ++ natDigits G ++ 'L' :: natDigits L ++ tail) ∧
      generate_article_code r.paper_type r.grammage r.laize r.supplier =
        String.mk (['K', 'B'] ++ natDigits G ++ 'L' :: natDigits L) := by
  have hgram := parseGram_digits G ('L' :: (natDigits L ++ tail)) (takeWhile_digit_head (by decide))
  have hlz := parseLaize_digits L tail hdig
  have hsupp : parseSupplier tail = some (String.mk tail) := by
    unfold parseSupplier
    cases tail with
    | nil => exact absurd rfl hne
    | cons a t =>
      rw [show ((a :: t).isEmpty = false) from rfl]
      rw [List.find?_eq_none.mpr (fun kv hkv => by
        simp only [beq_iff_eq]
        exact hmiss kv hkv)]
      rfl
  have hmkne : String.mk tail ≠ "" := by
    cases tail with
    | nil => exact absurd rfl hne
    | cons a t => exact mk_cons_ne_empty a t
  have hpp : parsePaper ('K' :: 'B' :: (natDigits G ++ ('L' :: (natDigits L ++ tail)))) =
      (some "Kraft Blanchi", natDigits G ++ ('L' :: (natDigits L ++ tail))) := rfl
  refine ⟨⟨some "Kraft Blanchi", some G, some L, some (String.mk tail),
    String.mk (['K', 'B'] ++ natDigits G ++ 'L' :: natDigits L ++ tail)⟩, ?_, rfl, rfl, ?_⟩
  · simp only [parse_article_code, List.cons_append, List.nil_append, List.append_assoc]
    rw [if_neg (mk_cons_ne_empty _ _)]
    simp only [toList_mk, hpp, hgram, hlz, hsupp]
  · show generate_article_code (some "Kraft Blanchi") (some G) (some L) (some (String.mk tail)) = _
    rw [generate_toList]
    rw [show (typeCodeOf (some "Kraft Blanchi")).toList = ['K', 'B'] from by decide,
      show (gramOf (some G)).toList = natDigits G from by simp [gramOf, hG, natStr],
      show (laizeStrOf (some L)).toList = lzChars (some L) from by
        simp [laizeStrOf, hL, natStr, lzChars],
      show (supplierCodeOf (some (String.mk tail))).toList = [] from by
        simp only [supplierCodeOf]
        rw [if_neg hmkne, List.find?_eq_none.mpr (fun kv hkv => by
          simp only [Bool.not_eq_true]
          exact hnokey kv hkv)]
        rfl]
    simp [lzChars]

/-- Claim C4 witness: the amended statement evaluated at code "KB100L28XYZ". -/
theorem claim_C4_witness :
    ∃ r, parse_article_code
        (some (String.mk (['K', 'B'] ++ natDigits 100 ++ 'L' :: natDigits 28 ++ ['X', 'Y', 'Z']))) =
        some r ∧
      r.supplier = some (String.mk ['X', 'Y', 'Z']) ∧
      r.raw_code = String.mk (['K', 'B'] ++ natDigits 100 ++ 'L' :: natDigits 28 ++
        ['X', 'Y', 'Z']) ∧
      generate_article_code r.paper_type r.grammage r.laize r.supplier =
        String.mk (['K', 'B'] ++ natDigits 100 ++ 'L' :: natDigits 28) :=
  claim_C4_unknown_supplier 100 28 ['X', 'Y', 'Z'] (by decide) (by decide) (by decide) (by decide)
    (by decide) (by decide)

/-- Claim C10: `parse_article_code` is total at its public interface — `None`
and the empty string decode to `None`, and every non-empty code string decodes
to a record whose `raw_code` field is the original input unchanged. -/
theorem claim_C10_total :
    parse_article_code none = none ∧ parse_article_code (some "") = none ∧
    ∀ s : String, s ≠ "" → ∃ r : ParsedCode, parse_article_code (some s) = some r ∧
      r.raw_code = s := by
  refine ⟨rfl, rfl, fun s hs => ?_⟩
  simp only [parse_article_code]
  rw [if_neg hs]
  exact ⟨_, rfl, rfl⟩

/-- Claim C10 witness: parsing the garbage code "@@7" succeeds and preserves
the raw input. -/
theorem claim_C10_witness :
    ∃ r : ParsedCode, parse_article_code (some "@@7") = some r ∧ r.raw_code = "@@7" :=
  claim_C10_total.2.2 "@@7" (by decide)

theorem gocc_orders (db : DB) (nom : String) (email telephone : Option String) :
    ((get_or_create_client db nom email telephone).2).orders = db.orders := by
  unfold get_or_create_client
  dsimp only
  repeat' split
  all_goals rfl

theorem gocc_real_found (db : DB) (nom : String) (email telephone : Option String) (c : Client)
    (hb : pyStrip nom ≠ "") (hw : ¬ pyStartsWith nom "Client WhatsApp")
    (hi : ¬ pyStartsWith nom "Client Inconnu")
    (hfound : db.clients.find? (nameMatches nom) = some c) :
    get_or_create_client db nom email telephone =
      if ¬ strFalsy telephone ∧ strFalsy c.telephone then
        (c, { db with clients :=
              db.clients.map (fun x =>
                if x.id = c.id then { x with telephone := telephone } else x) })
      else (c, db) := by
  have hne : nom ≠ "" := fun h => hb (by rw [h]; rfl)
  unfold get_or_create_client
  rw [if_neg hb]
  dsimp only
  rw [if_pos ⟨hne, hw, hi⟩, hfound]

theorem gocc_real_new (db : DB) (nom : String) (email telephone : Option String)
    (hb : pyStrip nom ≠ "") (hw : ¬ pyStartsWith nom "Client WhatsApp")
    (hi : ¬ pyStartsWith nom "Client Inconnu")
    (hnone : db.clients.find? (nameMatches nom) = none) :
    get_or_create_client db nom email telephone =
      (⟨db.clients.length + 1, nom, email, telephone⟩,
       { db with clients := db.clients ++ [⟨db.clients.length + 1, nom, email, telephone⟩] }) := by
  have hne : nom ≠ "" := fun h => hb (by rw [h]; rfl)
  unfold get_or_create_client
  rw [if_neg hb]
  dsimp only
  rw [if_pos ⟨hne, hw, hi⟩, hnone]

theorem insertOrder_fst (db : DB) (od : OrderData) :
    (insertOrder db od).1 = db.orders.length + 1 := by
  unfold insertOrder
  dsimp only
  rw [gocc_orders]

theorem insertOrder_orders (db : DB) (od : OrderData) :
    ∃ newo : Order,
      (insertOrder db od).2.orders = db.orders ++ [newo] ∧
      newo.id = db.orders.length + 1 ∧
      newo.numero_commande = od.numero_commande ∧
      newo.email_id = od.email_id ∧
      newo.quantite = some (pyOr0 od.quantite) ∧
      newo.quantite_livree = some (pyOr0 od.quantite_livree) ∧
      newo.reste_a_livrer = some (pyOr0 od.quantite - pyOr0 od.quantite_livree) := by
  unfold insertOrder
  dsimp only
  rw [gocc_orders]
  exact ⟨_, rfl, rfl, rfl, rfl, rfl, rfl, rfl⟩

theorem create_order_found_numero (db : DB) (od : OrderData) (o : Order)
    (h : findByNumero db od.numero_commande = some o) :
    create_order db od = (o.id, db) := by
  unfold create_order
  rw [h]

theorem create_order_found_email (db : DB) (od : OrderData) (o : Order)
    (h1 : findByNumero db od.numero_commande = none)
    (h2 : findByEmailId db od.email_id = some o) :
    create_order db od = (o.id, db) := by
  unfold create_order
  rw [h1, h2]

theorem create_order_insert (db : DB) (od : OrderData)
    (h1 : findByNumero db od.numero_commande = none)
    (h2 : findByEmailId db od.email_id = none) :
    create_order db od = insertOrder db od := by
  unfold create_order
  rw [h1, h2]

/-- Claim C1: ingesting the same draft twice through `create_order` is
idempotent.  With a truthy business order number not yet in storage (and an
email id not in storage either, so the first call really creates), the two
calls return the same order id, the first call adds exactly one order row
("created"), the second call leaves storage untouched ("already existed"),
and storage ends with exactly one canonical order carrying that number.  The
same short-circuit holds for the email id when the business order number is
absent. -/
theorem claim_C1_idempotent :
    (∀ (db : DB) (od : OrderData) (n : String),
      od.numero_commande = some n → n ≠ "" →
      (∀ o ∈ db.orders, o.numero_commande ≠ some n) →
      (∀ o ∈ db.orders, strFalsy od.email_id = false → o.email_id ≠ od.email_id) →
      (create_order (create_order db od).2 od).1 = (create_order db od).1 ∧
      ((create_order db od).2).orders.length = db.orders.length + 1 ∧
      (create_order (create_order db od).2 od).2 = (create_order db od).2 ∧
      (((create_order db od).2).orders.filter
        (fun o => o.numero_commande == some n)).length = 1) ∧
    (∀ (db : DB) (od : OrderData) (e : String),
      strFalsy od.numero_commande = true →
      od.email_id = some e → e ≠ "" →
      (∀ o ∈ db.orders, o.email_id ≠ some e) →
      (create_order (create_order db od).2 od).1 = (create_order db od).1 ∧
      ((create_order db od).2).orders.length = db.orders.length + 1 ∧
      (create_order (create_order db od).2 od).2 = (create_order db od).2 ∧
      (((create_order db od).2).orders.filter
        (fun o => o.email_id == some e)).length = 1) := by
  constructor
  · intro db od n hn hne hno hnoe
    have h1 : ∀ db' : DB, db'.orders = db.orders →
        findByNumero db' od.numero_commande = none := by
      intro db' hdb
      rw [hn]
      simp only [findByNumero]
      rw [if_neg hne, hdb]
      exact List.find?_eq_none.mpr (fun o ho => by
        simp only [beq_iff_eq]
        exact hno o ho)
    have h2 : ∀ db' : DB, db'.orders = db.orders →
        findByEmailId db' od.email_id = none := by
      intro db' hdb
      cases hem : od.email_id with
      | none => rfl
      | some e =>
        simp only [findByEmailId]
        by_cases he : e = ""
        · rw [if_pos he]
        · rw [if_neg he, hdb]
          refine List.find?_eq_none.mpr (fun o ho => ?_)
          simp only [beq_iff_eq]
          have hx := hnoe o ho (by rw [hem]; simp [strFalsy, he])
          rw [hem] at hx
          exact hx
    have hco1 : create_order db od = insertOrder db od :=
      create_order_insert db od (h1 db rfl) (h2 db rfl)
    obtain ⟨newo, horders, hid, hnum, hemail, hq, hl, hr⟩ := insertOrder_orders db od
    have hfst : (create_order db od).1 = db.orders.length + 1 := by
      rw [hco1]; exact insertOrder_fst db od
    have hdb1 : (create_order db od).2.orders = db.orders ++ [newo] := by
      rw [hco1]; exact horders
    have hfilter : db.orders.filter (fun o => o.numero_commande == some n) = [] :=
      List.filter_eq_nil_iff.mpr (fun o ho => by
        simp only [beq_iff_eq]
        exact hno o ho)
    have hpnew : (newo.numero_commande == some n) = true := by
      rw [hnum, hn]; exact beq_self_eq_true _
    have hfind2 : findByNumero (create_order db od).2 od.numero_commande = some newo := by
      rw [hn]
      simp only [findByNumero]
      rw [if_neg hne, hdb1, List.find?_append,
        List.find?_eq_none.mpr (fun o ho => by
          simp only [beq_iff_eq]
          exact hno o ho),
        Option.none_or]
      exact List.find?_cons_of_pos _ hpnew
    have hco2 : create_order (create_order db od).2 od = (newo.id, (create_order db od).2) :=
      create_order_found_numero _ od newo hfind2
    refine ⟨?_, ?_, ?_, ?_⟩
    · rw [hco2, hfst]; exact hid
    · rw [hdb1]; simp
    · rw [hco2]
    · rw [hdb1, List.filter_append, hfilter, List.nil_append]
      simp [hpnew]
  · intro db od e hnumfalsy hem hee hno
    have h1 : ∀ db' : DB, findByNumero db' od.numero_commande = none := by
      intro db'
      cases hnc : od.numero_commande with
      | none => rfl
      | some m =>
        simp only [findByNumero]
        rw [hnc] at hnumfalsy
        simp only [strFalsy, beq_iff_eq] at hnumfalsy
        rw [if_pos hnumfalsy]
    have h2 : ∀ db' : DB, db'.orders = db.orders →
        findByEmailId db' od.email_id = none := by
      intro db' hdb
      rw [hem]
      simp only [findByEmailId]
      rw [if_neg hee, hdb]
      exact List.find?_eq_none.mpr (fun o ho => by
        simp only [beq_iff_eq]
        exact hno o ho)
    have hco1 : create_order db od = insertOrder db od :=
      create_order_insert db od (h1 db) (h2 db rfl)
    obtain ⟨newo, horders, hid, hnum, hemail, hq, hl, hr⟩ := insertOrder_orders db od
    have hfst : (create_order db od).1 = db.orders.length + 1 := by
      rw [hco1]; exact insertOrder_fst db od
    have hdb1 : (create_order db od).2.orders = db.orders ++ [newo] := by
      rw [hco1]; exact horders
    have hpnew : (newo.email_id == some e) = true := by
      rw [hemail, hem]; exact beq_self_eq_true _
    have hfind2 : findByEmailId (create_order db od).2 od.email_id = some newo := by
      rw [hem]
      simp only [findByEmailId]
      rw [if_neg hee, hdb1, List.find?_append,
        List.find?_eq_none.mpr (fun o ho => by
          simp only [beq_iff_eq]
          exact hno o ho),
        Option.none_or]
      exact List.find?_cons_of_pos _ hpnew
    have hco2 : create_order (create_order db od).2 od = (newo.id, (create_order db od).2) :=
      create_order_found_email _ od newo (h1 _) hfind2
    refine ⟨?_, ?_, ?_, ?_⟩
    · rw [hco2, hfst]; exact hid
    · rw [hdb1]; simp
    · rw [hco2]
    · rw [hdb1, List.filter_append,
        List.filter_eq_nil_iff.mpr (fun o ho => by
          simp only [beq_iff_eq]
          exact hno o ho),
        List.nil_append]
      simp [hpnew]

/-- Claim C1 witness: both idempotency scenarios evaluated on an initially
empty store, once keyed by business order number "BC-1" and once keyed by
email id "msg-1". -/
theorem claim_C1_witness :
    ((create_order (create_order ⟨[], []⟩ { numero_commande := some "BC-1" }).2
        { numero_commande := some "BC-1" }).1 =
      (create_order ⟨[], []⟩ { numero_commande := some "BC-1" }).1 ∧
     ((create_order ⟨[], []⟩ { numero_commande := some "BC-1" }).2).orders.length =
      (⟨[], []⟩ : DB).orders.length + 1 ∧
     (create_order (create_order ⟨[], []⟩ { numero_commande := some "BC-1" }).2
        { numero_commande := some "BC-1" }).2 =
      (create_order ⟨[], []⟩ { numero_commande := some "BC-1" }).2 ∧
     (((create_order ⟨[], []⟩ { numero_commande := some "BC-1" }).2).orders.filter
        (fun o => o.numero_commande == some "BC-1")).length = 1) ∧
    ((create_order (create_order ⟨[], []⟩ { email_id := some "msg-1" }).2
        { email_id := some "msg-1" }).1 =
      (create_order ⟨[], []⟩ { email_id := some "msg-1" }).1 ∧
     ((create_order ⟨[], []⟩ { email_id := some "msg-1" }).2).orders.length =
      (⟨[], []⟩ : DB).orders.length + 1 ∧
     (create_order (create_order ⟨[], []⟩ { email_id := some "msg-1" }).2
        { email_id := some "msg-1" }).2 =
      (create_order ⟨[], []⟩ { email_id := some "msg-1" }).2 ∧
     (((create_order ⟨[], []⟩ { email_id := some "msg-1" }).2).orders.filter
        (fun o => o.email_id == some "msg-1")).length = 1) :=
  ⟨claim_C1_idempotent.1 ⟨[], []⟩ { numero_commande := some "BC-1" } "BC-1" rfl (by decide)
      (by intro o ho; cases ho) (by intro o ho; cases ho),
   claim_C1_idempotent.2 ⟨[], []⟩ { email_id := some "msg-1" } "msg-1" rfl rfl (by decide)
      (by intro o ho; cases ho)⟩

theorem forall2_map_self {R : Client → Client → Prop} (l : List Client) (g : Client → Client)
    (h : ∀ x ∈ l, R x (g x)) : List.Forall₂ R l (l.map g) := by
  induction l with
  | nil => exact List.Forall₂.nil
  | cons a t ih =>
    exact List.Forall₂.cons (h a (by simp)) (ih (fun x hx => h x (by simp [hx])))

/-- Claim C5: for a genuine (non-placeholder, non-blank) customer name,
calling `get_or_create_client` twice with that name returns the same identity
id both times, the second call changes nothing (no duplicate row), and when an
identity already matches, the lookup result is exactly the first row matching
by case-insensitive exact name comparison. -/
theorem claim_C5_resolve_idempotent (db : DB) (nom : String) (email telephone : Option String)
    (hb : pyStrip nom ≠ "") (hw : ¬ pyStartsWith nom "Client WhatsApp")
    (hi : ¬ pyStartsWith nom "Client Inconnu") :
    ((get_or_create_client (get_or_create_client db nom email telephone).2
        nom email telephone).1).id = ((get_or_create_client db nom email telephone).1).id ∧
    (get_or_create_client (get_or_create_client db nom email telephone).2
        nom email telephone).2 = (get_or_create_client db nom email telephone).2 ∧
    (∀ c, db.clients.find? (nameMatches nom) = some c →
      (get_or_create_client db nom email telephone).1 = c) := by
  have hthird : ∀ c, db.clients.find? (nameMatches nom) = some c →
      (get_or_create_client db nom email telephone).1 = c := by
    intro c hc
    rw [gocc_real_found db nom email telephone c hb hw hi hc]
    by_cases hcond : ¬ strFalsy telephone ∧ strFalsy c.telephone
    · rw [if_pos hcond]
    · rw [if_neg hcond]
  refine ⟨?_, ?_, hthird⟩ <;>
  · cases hf : db.clients.find? (nameMatches nom) with
    | some c =>
      rw [gocc_real_found db nom email telephone c hb hw hi hf]
      by_cases hcond : ¬ strFalsy telephone ∧ strFalsy c.telephone
      · rw [if_pos hcond]
        dsimp only
        have hinv : ∀ x : Client,
            nameMatches nom (if x.id = c.id then { x with telephone := telephone } else x) =
              nameMatches nom x := by
          intro x
          by_cases hx : x.id = c.id
          · rw [if_pos hx]; rfl
          · rw [if_neg hx]
        have hf2 : (db.clients.map (fun x =>
              if x.id = c.id then { x with telephone := telephone } else x)).find?
              (nameMatches nom) = some { c with telephone := telephone } := by
          rw [List.find?_map,
            show (nameMatches nom ∘ fun x =>
                if x.id = c.id then { x with telephone := telephone } else x) = nameMatches nom
              from funext hinv,
            hf, Option.map_some']
          rw [if_pos rfl]
        rw [gocc_real_found _ nom email telephone _ hb hw hi hf2]
        rw [if_neg (fun hcc => hcond.1 hcc.2)]
      · rw [if_neg hcond]
        dsimp only
        rw [gocc_real_found db nom email telephone c hb hw hi hf, if_neg hcond]
    | none =>
      rw [gocc_real_new db nom email telephone hb hw hi hf]
      dsimp only
      have hf2 : (db.clients ++
          [(⟨db.clients.length + 1, nom, email, telephone⟩ : Client)]).find?
            (nameMatches nom) = some ⟨db.clients.length + 1, nom, email, telephone⟩ := by
        rw [List.find?_append, hf, Option.none_or]
        exact List.find?_cons_of_pos _ (by simp [nameMatches])
      rw [gocc_real_found _ nom email telephone _ hb hw hi hf2]
      rw [if_neg (fun hcc => hcc.1 hcc.2)]

/-- Claim C5 witness: resolving "Société Test" twice (no contact info) on an
initially empty store. -/
theorem claim_C5_witness :
    ((get_or_create_client (get_or_create_client ⟨[], []⟩ "Société Test" none none).2
        "Société Test" none none).1).id =
      ((get_or_create_client ⟨[], []⟩ "Société Test" none none).1).id ∧
    (get_or_create_client (get_or_create_client ⟨[], []⟩ "Société Test" none none).2
        "Société Test" none none).2 =
      (get_or_create_client ⟨[], []⟩ "Société Test" none none).2 ∧
    (∀ c, ([] : List Client).find? (nameMatches "Société Test") = some c →
      (get_or_create_client ⟨[], []⟩ "Société Test" none none).1 = c) :=
  claim_C5_resolve_idempotent ⟨[], []⟩ "Société Test" none none (by decide) (by decide)
    (by decide)

/-- Claim C9: when `get_or_create_client` finds an existing identity by exact
case-insensitive name match (under a genuine name and unique ids), the only
mutation in the stored identities is filling a previously-falsy telephone
field with the supplied value: every row keeps its id, name and email, its
telephone either unchanged or backfilled, and no row is deleted. -/
theorem claim_C9_frame (db : DB) (nom : String) (email telephone : Option String) (c : Client)
    (hb : pyStrip nom ≠ "") (hw : ¬ pyStartsWith nom "Client WhatsApp")
    (hi : ¬ pyStartsWith nom "Client Inconnu")
    (hfound : db.clients.find? (nameMatches nom) = some c)
    (huniq : ∀ c1 ∈ db.clients, ∀ c2 ∈ db.clients, c1.id = c2.id → c1 = c2) :
    List.Forall₂ (fun old new : Client =>
        new.id = old.id ∧ new.nom = old.nom ∧ new.email = old.email ∧
        (new.telephone = old.telephone ∨
          (strFalsy old.telephone = true ∧ new.telephone = telephone)))
      db.clients ((get_or_create_client db nom email telephone).2).clients ∧
    ((get_or_create_client db nom email telephone).2).clients.length = db.clients.length := by
  rw [gocc_real_found db nom email telephone c hb hw hi hfound]
  have hmem := List.mem_of_find?_eq_some hfound
  by_cases hcond : ¬ strFalsy telephone ∧ strFalsy c.telephone
  · rw [if_pos hcond]
    dsimp only
    constructor
    · apply forall2_map_self
      intro x hx
      by_cases hid : x.id = c.id
      · rw [if_pos hid]
        refine ⟨rfl, rfl, rfl, Or.inr ⟨?_, rfl⟩⟩
        rw [huniq x hx c hmem hid]
        exact hcond.2
      · rw [if_neg hid]
        exact ⟨rfl, rfl, rfl, Or.inl rfl⟩
    · simp
  · rw [if_neg hcond]
    exact ⟨List.forall₂_same.mpr (fun x _ => ⟨rfl, rfl, rfl, Or.inl rfl⟩), rfl⟩

/-- Claim C9 witness: resolving "Société Test" with a phone number against a
store holding that client with no phone yet backfills only the phone. -/
theorem claim_C9_witness :
    List.Forall₂ (fun old new : Client =>
        new.id = old.id ∧ new.nom = old.nom ∧ new.email = old.email ∧
        (new.telephone = old.telephone ∨
          (strFalsy old.telephone = true ∧ new.telephone = some "0601020304")))
      [⟨1, "Société Test", none, none⟩]
      ((get_or_create_client ⟨[⟨1, "Société Test", none, none⟩], []⟩ "Société Test" none
          (some "0601020304")).2).clients ∧
    ((get_or_create_client ⟨[⟨1, "Société Test", none, none⟩], []⟩ "Société Test" none
        (some "0601020304")).2).clients.length =
      [(⟨1, "Société Test", none, none⟩ : Client)].length :=
  claim_C9_frame ⟨[⟨1, "Société Test", none, none⟩], []⟩ "Société Test" none
    (some "0601020304") ⟨1, "Société Test", none, none⟩ (by decide) (by decide) (by decide)
    (by decide) (by decide)

/-- Claim C8: the derived-quantity invariant `reste_a_livrer = quantite -
quantite_livree` (falsy values coalesced to 0, so a missing delivered
quantity defaults to 0).  First part: the row inserted by `create_order`
satisfies it, with `quantite` and `quantite_livree` stored coalesced.  Second
part: an update through `api_update_order` that touches `quantite` or
`quantite_livree` recomputes `reste_a_livrer`, so every updated row satisfies
the invariant again. -/
theorem claim_C8_derived_quantity :
    (∀ (db : DB) (od : OrderData),
      findByNumero db od.numero_commande = none →
      findByEmailId db od.email_id = none →
      ∃ newo : Order,
        (create_order db od).2.orders = db.orders ++ [newo] ∧
        newo.quantite = some (pyOr0 od.quantite) ∧
        newo.quantite_livree = some (pyOr0 od.quantite_livree) ∧
        newo.reste_a_livrer = some (pyOr0 newo.quantite - pyOr0 newo.quantite_livree)) ∧
    (∀ (db : DB) (oid : ℕ) (u : OrderUpdates) (o : Order),
      (u.quantite.isSome || u.quantite_livree.isSome) = true →
      get_order db oid = some o →
      (∀ o1 ∈ db.orders, o1.id = oid → o1 = o) →
      ∃ db', api_update_order db oid u = some db' ∧
        ∀ o1 ∈ db'.orders, o1.id = oid →
          o1.reste_a_livrer = some (pyOr0 o1.quantite - pyOr0 o1.quantite_livree)) := by
  constructor
  · intro db od h1 h2
    obtain ⟨newo, horders, hid, hnum, hemail, hq, hl, hr⟩ := insertOrder_orders db od
    refine ⟨newo, ?_, hq, hl, ?_⟩
    · rw [create_order_insert db od h1 h2]
      exact horders
    · rw [hr, hq, hl]
      rfl
  · intro db oid u o hsome hget huniq
    unfold api_update_order
    rw [if_pos hsome, hget]
    dsimp only
    refine ⟨_, rfl, ?_⟩
    intro o1 ho1 hid1
    unfold update_order at ho1
    dsimp only at ho1
    obtain ⟨x, hx, hfx⟩ := List.mem_map.mp ho1
    by_cases hxid : x.id = oid
    · have hxo : x = o := huniq x hx hxid
      subst hxo
      rw [if_pos hxid] at hfx
      rw [← hfx]
      rfl
    · rw [if_neg hxid] at hfx
      rw [← hfx] at hid1
      exact absurd hid1 hxid

/-- Claim C8 witness: part one on an empty store with quantities 5000/0
(remaining 5000); part two updating the delivered quantity of that stored
order to 1500 (remaining recomputed to 3500). -/
theorem claim_C8_witness :
    (∃ newo : Order,
      (create_order ⟨[], []⟩ { quantite := some 5000 }).2.orders = [] ++ [newo] ∧
      newo.quantite = some (pyOr0 (some 5000)) ∧
      newo.quantite_livree = some (pyOr0 none) ∧
      newo.reste_a_livrer = some (pyOr0 newo.quantite - pyOr0 newo.quantite_livree)) ∧
    (∃ db', api_update_order
        ⟨[], [⟨1, none, 1, "CL00001", none, some 5000, some 0, some 5000, none⟩]⟩ 1
        { quantite_livree := some (some 1500) } = some db' ∧
      ∀ o1 ∈ db'.orders, o1.id = 1 →
        o1.reste_a_livrer = some (pyOr0 o1.quantite - pyOr0 o1.quantite_livree)) :=
  ⟨claim_C8_derived_quantity.1 ⟨[], []⟩ { quantite := some 5000 } rfl rfl,
   claim_C8_derived_quantity.2
     ⟨[], [⟨1, none, 1, "CL00001", none, some 5000, some 0, some 5000, none⟩]⟩ 1
     { quantite_livree := some (some 1500) }
     ⟨1, none, 1, "CL00001", none, some 5000, some 0, some 5000, none⟩ rfl (by decide)
     (by decide)⟩

theorem candScore_pos {sN : String} {c : Client} (h : (candOverlap sN c).Nonempty) :
    0 < candScore sN c := by
  unfold candScore
  dsimp only
  have hcard : 0 < ((pyTokens sN).toFinset ∩
      (pyTokens (normalize_client_name c.nom)).toFinset).card :=
    Finset.card_pos.mpr h
  have hsub : ((pyTokens sN).toFinset ∩
      (pyTokens (normalize_client_name c.nom)).toFinset).card ≤ (pyTokens sN).toFinset.card :=
    Finset.card_le_card (Finset.inter_subset_left)
  have hmax : 0 < (max (pyTokens sN).toFinset.card
      (pyTokens (normalize_client_name c.nom)).toFinset.card) := by
    have := le_max_left (pyTokens sN).toFinset.card
      (pyTokens (normalize_client_name c.nom)).toFinset.card
    omega
  have hbase : 0 < (((pyTokens sN).toFinset ∩
        (pyTokens (normalize_client_name c.nom)).toFinset).card : ℚ) /
      ((max (pyTokens sN).toFinset.card
        (pyTokens (normalize_client_name c.nom)).toFinset.card : ℕ) : ℚ) := by
    apply div_pos
    · exact_mod_cast hcard
    · exact_mod_cast hmax
  split
  · linarith
  · exact hbase

theorem candScore_no_overlap {sN : String} {c : Client}
    (h : ¬ (candOverlap sN c).Nonempty) : candScore sN c ≤ 3 / 10 := by
  have hcard : ((pyTokens sN).toFinset ∩
      (pyTokens (normalize_client_name c.nom)).toFinset).card = 0 :=
    Finset.card_eq_zero.mpr (Finset.not_nonempty_iff_eq_empty.mp h)
  unfold candScore
  dsimp only
  rw [hcard]
  split <;> norm_num

theorem stepInv_low {cs : Option Client × ℚ} {c : Client} {s : ℚ}
    (hs : s ≤ 3 / 10) (hcs : cs.2 ≤ 3 / 10) : StepInv cs (some (c, s)) :=
  ⟨fun hgt => absurd hgt (not_lt.mpr hs), fun _ => hcs⟩

theorem stepInv_preserved (sN : String) (cs : Option Client × ℚ) (ss : Option (Client × ℚ))
    (d : Client) (h : StepInv cs ss) : StepInv (codeStep sN cs d) (specStep sN ss d) := by
  unfold codeStep specStep
  by_cases hov : (candOverlap sN d).Nonempty
  · rw [if_pos hov]
    cases ss with
    | none =>
      have hcs : cs = (none, 0) := h
      subst hcs
      dsimp only
      rw [if_pos (candScore_pos hov)]
      exact ⟨fun _ => rfl, fun hle => hle⟩
    | some p =>
      obtain ⟨c, s⟩ := p
      obtain ⟨h1, h2⟩ := h
      dsimp only
      rcases le_or_lt (candScore sN d) (3 / 10) with hsc | hsc
      · rcases le_or_lt s (3 / 10) with hs | hs
        · have hcs2 := h2 hs
          by_cases hgts : candScore sN d > s
          · rw [if_pos hgts]
            by_cases hgtc : candScore sN d > cs.2
            · rw [if_pos hgtc]
              exact stepInv_low hsc hsc
            · rw [if_neg hgtc]
              exact stepInv_low hsc hcs2
          · rw [if_neg hgts]
            by_cases hgtc : candScore sN d > cs.2
            · rw [if_pos hgtc]
              exact stepInv_low hs hsc
            · rw [if_neg hgtc]
              exact stepInv_low hs hcs2
        · have hcs := h1 hs
          subst hcs
          dsimp only
          rw [if_neg (by exact not_lt.mpr (le_of_lt (lt_of_le_of_lt hsc hs))),
            if_neg (by exact not_lt.mpr (le_of_lt (lt_of_le_of_lt hsc hs)))]
          exact ⟨h1, h2⟩
      · rcases le_or_lt s (3 / 10) with hs | hs
        · have hcs2 := h2 hs
          rw [if_pos (lt_of_le_of_lt hs hsc), if_pos (lt_of_le_of_lt hcs2 hsc)]
          exact ⟨fun _ => rfl, fun hle => hle⟩
        · have hcs := h1 hs
          subst hcs
          dsimp only
          by_cases hgt : candScore sN d > s
          · rw [if_pos hgt, if_pos hgt]
            exact ⟨fun _ => rfl, fun hle => absurd hsc (not_lt.mpr hle)⟩
          · rw [if_neg hgt, if_neg hgt]
            exact ⟨h1, h2⟩
  · rw [if_neg hov]
    have hle := candScore_no_overlap hov
    cases ss with
    | none =>
      have hcs : cs = (none, 0) := h
      subst hcs
      exact stepInv_low hle (by norm_num)
    | some p =>
      obtain ⟨c, s⟩ := p
      obtain ⟨h1, h2⟩ := h
      dsimp only
      by_cases hgt : candScore sN d > s
      · rw [if_pos hgt]
        exact stepInv_low hle (h2 (le_of_lt (lt_of_lt_of_le hgt hle)))
      · rw [if_neg hgt]
        exact ⟨h1, h2⟩

theorem fold_stepInv (sN : String) (l : List Client) (cs : Option Client × ℚ)
    (ss : Option (Client × ℚ)) (h : StepInv cs ss) :
    StepInv (l.foldl (codeStep sN) cs) (l.foldl (specStep sN) ss) := by
  induction l generalizing cs ss with
  | nil => exact h
  | cons d t ih => exact ih _ _ (stepInv_preserved sN cs ss d h)

/-- Claim C7: `find_matching_client` computes exactly the result described by
the spec — token-overlap score `|intersection| / max(|search|, |candidate|)`
over normalized names plus a 0.3 substring bonus, highest-scoring candidate
returned only above the 0.3 threshold, ties broken by first-seen order.  Both
sides are pure functions of the stored client list, so no writes occur. -/
theorem claim_C7_fuzzy_find (clients : List Client) (search_name : String) :
    find_matching_client clients search_name = fuzzy_find_spec clients search_name := by
  unfold find_matching_client fuzzy_find_spec
  dsimp only
  have h := fold_stepInv (normalize_client_name search_name) clients (none, 0) none rfl
  revert h
  cases hss : clients.foldl (specStep (normalize_client_name search_name)) none with
  | none =>
    intro h
    have hcs : clients.foldl (codeStep (normalize_client_name search_name)) (none, 0) =
        (none, 0) := h
    rw [hcs]
  | some p =>
    obtain ⟨c, s⟩ := p
    intro h
    obtain ⟨h1, h2⟩ := h
    by_cases hgt : s > 3 / 10
    · rw [h1 hgt]
    · have hle := h2 (not_lt.mp hgt)
      dsimp only
      rw [if_neg hgt]
      cases hcs1 : (clients.foldl (codeStep (normalize_client_name search_name)) (none, 0)).1 with
      | none => rfl
      | some c2 =>
        dsimp only
        rw [if_neg (not_lt.mpr hle)]

theorem fill_entreprise (d : Draft) (h : HistOrder) :
    (fill_from_history d h).entreprise_cliente = d.entreprise_cliente := by
  unfold fill_from_history
  split <;> rfl

theorem fill_type (d : Draft) (h : HistOrder) :
    (fill_from_history d h).type_produit = (fillDraft d h).type_produit := by
  unfold fill_from_history
  split <;> rfl

theorem fill_nature (d : Draft) (h : HistOrder) :
    (fill_from_history d h).nature_produit = (fillDraft d h).nature_produit := by
  unfold fill_from_history
  split <;> rfl

theorem fill_quantite (d : Draft) (h : HistOrder) :
    (fill_from_history d h).quantite = (fillDraft d h).quantite := by
  unfold fill_from_history
  split <;> rfl

theorem fill_unite (d : Draft) (h : HistOrder) :
    (fill_from_history d h).unite = (fillDraft d h).unite := by
  unfold fill_from_history
  split <;> rfl

theorem fill_prix_unitaire (d : Draft) (h : HistOrder) :
    (fill_from_history d h).prix_unitaire = (fillDraft d h).prix_unitaire := by
  unfold fill_from_history
  split <;> rfl

theorem fill_prix_total (d : Draft) (h : HistOrder) :
    (fill_from_history d h).prix_total = (fillDraft d h).prix_total := by
  unfold fill_from_history
  split <;> rfl

theorem fill_devise (d : Draft) (h : HistOrder) :
    (fill_from_history d h).devise = (fillDraft d h).devise := by
  unfold fill_from_history
  split <;> rfl

theorem fill_history_fields (d : Draft) (h : HistOrder) :
    (fill_from_history d h).history_fields =
      if filledFields d h = [] then d.history_fields else filledFields d h := by
  unfold fill_from_history
  split <;> rfl

theorem fill_flag (d : Draft) (h : HistOrder) :
    (fill_from_history d h).filled_from_history =
      if filledFields d h = [] then d.filled_from_history else true := by
  unfold fill_from_history
  split <;> rfl

theorem fill_confiance (d : Draft) (h : HistOrder) :
    (fill_from_history d h).confiance =
      if filledFields d h = [] then d.confiance
      else (if d.confiance.getD 0 < 85 then some 85 else d.confiance) := by
  unfold fill_from_history
  split <;> rfl

theorem ar_entreprise (d : Draft) (h : HistOrder) (name : String) :
    (apply_reorder d h name).entreprise_cliente =
      (fill_from_history
        { d with entreprise_cliente := some (orElseS h.client_nom name) } h).entreprise_cliente := by
  simp only [apply_reorder]

theorem ar_type (d : Draft) (h : HistOrder) (name : String) :
    (apply_reorder d h name).type_produit =
      (fill_from_history
        { d with entreprise_cliente := some (orElseS h.client_nom name) } h).type_produit := by
  simp only [apply_reorder]

theorem ar_nature (d : Draft) (h : HistOrder) (name : String) :
    (apply_reorder d h name).nature_produit =
      (fill_from_history
        { d with entreprise_cliente := some (orElseS h.client_nom name) } h).nature_produit := by
  simp only [apply_reorder]

theorem ar_quantite (d : Draft) (h : HistOrder) (name : String) :
    (apply_reorder d h name).quantite =
      (fill_from_history
        { d with entreprise_cliente := some (orElseS h.client_nom name) } h).quantite := by
  simp only [apply_reorder]

theorem ar_unite (d : Draft) (h : HistOrder) (name : String) :
    (apply_reorder d h name).unite =
      (fill_from_history
        { d with entreprise_cliente := some (orElseS h.client_nom name) } h).unite := by
  simp only [apply_reorder]

theorem ar_prix_unitaire (d : Draft) (h : HistOrder) (name : String) :
    (apply_reorder d h name).prix_unitaire =
      (fill_from_history
        { d with entreprise_cliente := some (orElseS h.client_nom name) } h).prix_unitaire := by
  simp only [apply_reorder]

theorem ar_prix_total (d : Draft) (h : HistOrder) (name : String) :
    (apply_reorder d h name).prix_total =
      (fill_from_history
        { d with entreprise_cliente := some (orElseS h.client_nom name) } h).prix_total := by
  simp only [apply_reorder]

theorem ar_devise (d : Draft) (h : HistOrder) (name : String) :
    (apply_reorder d h name).devise =
      (fill_from_history
        { d with entreprise_cliente := some (orElseS h.client_nom name) } h).devise := by
  simp only [apply_reorder]

theorem ar_history_fields (d : Draft) (h : HistOrder) (name : String) :
    (apply_reorder d h name).history_fields =
      (fill_from_history
        { d with entreprise_cliente := some (orElseS h.client_nom name) } h).history_fields := by
  simp only [apply_reorder]

theorem ar_flag (d : Draft) (h : HistOrder) (name : String) :
    (apply_reorder d h name).filled_from_history =
      (fill_from_history
        { d with entreprise_cliente := some (orElseS h.client_nom name) } h).filled_from_history := by
  simp only [apply_reorder]

theorem ar_confiance (d : Draft) (h : HistOrder) (name : String) :
    (apply_reorder d h name).confiance =
      (fill_from_history
        { d with entreprise_cliente := some (orElseS h.client_nom name) } h).confiance := by
  simp only [apply_reorder]

theorem ar_est (d : Draft) (h : HistOrder) (name : String) :
    (apply_reorder d h name).est_bon_commande = true := by
  simp only [apply_reorder]

theorem ar_is (d : Draft) (h : HistOrder) (name : String) :
    (apply_reorder d h name).is_reorder = true := by
  simp only [apply_reorder]

/-- Claim C6: on the reorder path with a located historical order carrying a
truthy canonical client name, the draft's customer name is set to that
canonical name; each of the seven product/pricing fields that is null in the
draft and present (truthy) in the historical order is copied with its name
recorded in `history_fields`; and if at least one field was backfilled, the
`filled_from_history` flag is set and the confidence ends at 85 or above. -/
theorem claim_C6_reorder_backfill (d : Draft) (h : HistOrder) (name : String) (r : Draft)
    (hcanon : strFalsy h.client_nom = false)
    (hr : r = apply_reorder d h name) :
    r.entreprise_cliente = h.client_nom ∧
    (d.type_produit = none → strFalsy h.produit_type = false →
      r.type_produit = h.produit_type ∧ "type_produit" ∈ r.history_fields) ∧
    (d.nature_produit = none → strFalsy h.nature_produit = false →
      r.nature_produit = h.nature_produit ∧ "nature_produit" ∈ r.history_fields) ∧
    (d.quantite = none → ratFalsy h.quantite = false →
      r.quantite = h.quantite ∧ "quantite" ∈ r.history_fields) ∧
    (d.unite = none → strFalsy h.unite = false →
      r.unite = h.unite ∧ "unite" ∈ r.history_fields) ∧
    (d.prix_unitaire = none → ratFalsy h.prix_unitaire = false →
      r.prix_unitaire = h.prix_unitaire ∧ "prix_unitaire" ∈ r.history_fields) ∧
    (d.prix_total = none → ratFalsy h.prix_total = false →
      r.prix_total = h.prix_total ∧ "prix_total" ∈ r.history_fields) ∧
    (d.devise = none → strFalsy h.devise = false →
      r.devise = h.devise ∧ "devise" ∈ r.history_fields) ∧
    r.est_bon_commande = true ∧ r.is_reorder = true ∧
    (((d.type_produit = none ∧ strFalsy h.produit_type = false) ∨
      (d.nature_produit = none ∧ strFalsy h.nature_produit = false) ∨
      (d.quantite = none ∧ ratFalsy h.quantite = false) ∨
      (d.unite = none ∧ strFalsy h.unite = false) ∨
      (d.prix_unitaire = none ∧ ratFalsy h.prix_unitaire = false) ∨
      (d.prix_total = none ∧ ratFalsy h.prix_total = false) ∨
      (d.devise = none ∧ strFalsy h.devise = false)) →
      r.filled_from_history = true ∧ ∃ k : ℤ, r.confiance = some k ∧ 85 ≤ k) := by
  subst hr
  obtain ⟨n, hcn⟩ : ∃ n, h.client_nom = some n := by
    cases hcn : h.client_nom with
    | none => rw [hcn] at hcanon; cases hcanon
    | some n => exact ⟨n, rfl⟩
  rw [hcn] at hcanon
  simp only [strFalsy, beq_eq_false_iff_ne] at hcanon
  have hact : orElseS h.client_nom name = n := by rw [hcn]; simp [orElseS, hcanon]
  refine ⟨?_, ?_, ?_, ?_, ?_, ?_, ?_, ?_, ar_est d h name, ar_is d h name, ?_⟩
  · rw [ar_entreprise, fill_entreprise]
    dsimp only
    rw [hact, hcn]
  · intro hdn hhn
    have hb : (strFalsy ({ d with
        entreprise_cliente := some (orElseS h.client_nom name) } : Draft).type_produit &&
        !strFalsy h.produit_type) = true := by
      dsimp only
      rw [hdn, hhn]
      rfl
    have hmem : "type_produit" ∈
        filledFields { d with entreprise_cliente := some (orElseS h.client_nom name) } h := by
      unfold filledFields
      simp [hb]
    constructor
    · rw [ar_type, fill_type]
      unfold fillDraft
      dsimp only
      rw [if_pos hb]
    · rw [ar_history_fields, fill_history_fields, if_neg (List.ne_nil_of_mem hmem)]
      exact hmem
  · intro hdn hhn
    have hb : (strFalsy ({ d with
        entreprise_cliente := some (orElseS h.client_nom name) } : Draft).nature_produit &&
        !strFalsy h.nature_produit) = true := by
      dsimp only
      rw [hdn, hhn]
      rfl
    have hmem : "nature_produit" ∈
        filledFields { d with entreprise_cliente := some (orElseS h.client_nom name) } h := by
      unfold filledFields
      simp [hb]
    constructor
    · rw [ar_nature, fill_nature]
      unfold fillDraft
      dsimp only
      rw [if_pos hb]
    · rw [ar_history_fields, fill_history_fields, if_neg (List.ne_nil_of_mem hmem)]
      exact hmem
  · intro hdn hhn
    have hb : (ratFalsy ({ d with
        entreprise_cliente := some (orElseS h.client_nom name) } : Draft).quantite &&
        !ratFalsy h.quantite) = true := by
      dsimp only
      rw [hdn, hhn]
      rfl
    have hmem : "quantite" ∈
        filledFields { d with entreprise_cliente := some (orElseS h.client_nom name) } h := by
      unfold filledFields
      simp [hb]
    constructor
    · rw [ar_quantite, fill_quantite]
      unfold fillDraft
      dsimp only
      rw [if_pos hb]
    · rw [ar_history_fields, fill_history_fields, if_neg (List.ne_nil_of_mem hmem)]
      exact hmem
  · intro hdn hhn
    have hb : (strFalsy ({ d with
        entreprise_cliente := some (orElseS h.client_nom name) } : Draft).unite &&
        !strFalsy h.unite) = true := by
      dsimp only
      rw [hdn, hhn]
      rfl
    have hmem : "unite" ∈
        filledFields { d with entreprise_cliente := some (orElseS h.client_nom name) } h := by
      unfold filledFields
      simp [hb]
    constructor
    · rw [ar_unite, fill_unite]
      unfold fillDraft
      dsimp only
      rw [if_pos hb]
    · rw [ar_history_fields, fill_history_fields, if_neg (List.ne_nil_of_mem hmem)]
      exact hmem
  · intro hdn hhn
    have hb : (ratFalsy ({ d with
        entreprise_cliente := some (orElseS h.client_nom name) } : Draft).prix_unitaire &&
        !ratFalsy h.prix_unitaire) = true := by
      dsimp only
      rw [hdn, hhn]
      rfl
    have hmem : "prix_unitaire" ∈
        filledFields { d with entreprise_cliente := some (orElseS h.client_nom name) } h := by
      unfold filledFields
      simp [hb]
    constructor
    · rw [ar_prix_unitaire, fill_prix_unitaire]
      unfold fillDraft
      dsimp only
      rw [if_pos hb]
    · rw [ar_history_fields, fill_history_fields, if_neg (List.ne_nil_of_mem hmem)]
      exact hmem
  · intro hdn hhn
    have hb : (ratFalsy ({ d with
        entreprise_cliente := some (orElseS h.client_nom name) } : Draft).prix_total &&
        !ratFalsy h.prix_total) = true := by
      dsimp only
      rw [hdn, hhn]
      rfl
    have hmem : "prix_total" ∈
        filledFields { d with entreprise_cliente := some (orElseS h.client_nom name) } h := by
      unfold filledFields
      simp [hb]
    constructor
    · rw [ar_prix_total, fill_prix_total]
      unfold fillDraft
      dsimp only
      rw [if_pos hb]
    · rw [ar_history_fields, fill_history_fields, if_neg (List.ne_nil_of_mem hmem)]
      exact hmem
  · intro hdn hhn
    have hb : (strFalsy ({ d with
        entreprise_cliente := some (orElseS h.client_nom name) } : Draft).devise &&
        !strFalsy h.devise) = true := by
      dsimp only
      rw [hdn, hhn]
      rfl
    have hmem : "devise" ∈
        filledFields { d with entreprise_cliente := some (orElseS h.client_nom name) } h := by
      unfold filledFields
      simp [hb]
    constructor
    · rw [ar_devise, fill_devise]
      unfold fillDraft
      dsimp only
      rw [if_pos hb]
    · rw [ar_history_fields, fill_history_fields, if_neg (List.ne_nil_of_mem hmem)]
      exact hmem
  · intro hdisj
    have hne : filledFields
        { d with entreprise_cliente := some (orElseS h.client_nom name) } h ≠ [] := by
      rcases hdisj with ⟨hdn, hhn⟩ | ⟨hdn, hhn⟩ | ⟨hdn, hhn⟩ | ⟨hdn, hhn⟩ | ⟨hdn, hhn⟩ |
        ⟨hdn, hhn⟩ | ⟨hdn, hhn⟩ <;>
      · intro hcontra
        unfold filledFields at hcontra
        dsimp only at hcontra
        rw [hdn, hhn] at hcontra
        simp [strFalsy, ratFalsy] at hcontra
    constructor
    · rw [ar_flag, fill_flag, if_neg hne]
    · rw [ar_confiance, fill_confiance, if_neg hne]
      dsimp only
      by_cases hc : d.confiance.getD 0 < 85
      · exact ⟨85, by rw [if_pos hc], by norm_num⟩
      · cases hdc : d.confiance with
        | none => rw [hdc] at hc; exact absurd (by norm_num) hc
        | some k =>
          rw [hdc] at hc
          refine ⟨k, by rw [if_neg hc], ?_⟩
          simpa using not_lt.mp hc

/-- Claim C6 witness: the backfill conclusion evaluated at the spec's example
scenario. -/
theorem claim_C6_witness :
    (apply_reorder exampleDraft exampleHist "chhiwat fes").entreprise_cliente = exampleHist.client_nom ∧
    (exampleDraft.type_produit = none → strFalsy exampleHist.produit_type = false →
      (apply_reorder exampleDraft exampleHist "chhiwat fes").type_produit = exampleHist.produit_type ∧
      "type_produit" ∈ (apply_reorder exampleDraft exampleHist "chhiwat fes").history_fields) ∧
    (exampleDraft.nature_produit = none → strFalsy exampleHist.nature_produit = false →
      (apply_reorder exampleDraft exampleHist "chhiwat fes").nature_produit = exampleHist.nature_produit ∧
      "nature_produit" ∈ (apply_reorder exampleDraft exampleHist "chhiwat fes").history_fields) ∧
    (exampleDraft.quantite = none → ratFalsy exampleHist.quantite = false →
      (apply_reorder exampleDraft exampleHist "chhiwat fes").quantite = exampleHist.quantite ∧
      "quantite" ∈ (apply_reorder exampleDraft exampleHist "chhiwat fes").history_fields) ∧
    (exampleDraft.unite = none → strFalsy exampleHist.unite = false →
      (apply_reorder exampleDraft exampleHist "chhiwat fes").unite = exampleHist.unite ∧
      "unite" ∈ (apply_reorder exampleDraft exampleHist "chhiwat fes").history_fields) ∧
    (exampleDraft.prix_unitaire = none → ratFalsy exampleHist.prix_unitaire = false →
      (apply_reorder exampleDraft exampleHist "chhiwat fes").prix_unitaire = exampleHist.prix_unitaire ∧
      "prix_unitaire" ∈ (apply_reorder exampleDraft exampleHist "chhiwat fes").history_fields) ∧
    (exampleDraft.prix_total = none → ratFalsy exampleHist.prix_total = false →
      (apply_reorder exampleDraft exampleHist "chhiwat fes").prix_total = exampleHist.prix_total ∧
      "prix_total" ∈ (apply_reorder exampleDraft exampleHist "chhiwat fes").history_fields) ∧
    (exampleDraft.devise = none → strFalsy exampleHist.devise = false →
      (apply_reorder exampleDraft exampleHist "chhiwat fes").devise = exampleHist.devise ∧
      "devise" ∈ (apply_reorder exampleDraft exampleHist "chhiwat fes").history_fields) ∧
    (apply_reorder exampleDraft exampleHist "chhiwat fes").est_bon_commande = true ∧
    (apply_reorder exampleDraft exampleHist "chhiwat fes").is_reorder = true ∧
    (((exampleDraft.type_produit = none ∧ strFalsy exampleHist.produit_type = false) ∨
      (exampleDraft.nature_produit = none ∧ strFalsy exampleHist.nature_produit = false) ∨
      (exampleDraft.quantite = none ∧ ratFalsy exampleHist.quantite = false) ∨
      (exampleDraft.unite = none ∧ strFalsy exampleHist.unite = false) ∨
      (exampleDraft.prix_unitaire = none ∧ ratFalsy exampleHist.prix_unitaire = false) ∨
      (exampleDraft.prix_total = none ∧ ratFalsy exampleHist.prix_total = false) ∨
      (exampleDraft.devise = none ∧ strFalsy exampleHist.devise = false)) →
      (apply_reorder exampleDraft exampleHist "chhiwat fes").filled_from_history = true ∧
      ∃ k : ℤ, (apply_reorder exampleDraft exampleHist "chhiwat fes").confiance = some k ∧ 85 ≤ k) :=
  claim_C6_reorder_backfill exampleDraft exampleHist "chhiwat fes"
    (apply_reorder exampleDraft exampleHist "chhiwat fes") (by decide) rfl

end OrderAI
